import Mathlib

/-!
Verification development for the workflow-validation engine
(`getYamlErrors` and its pipeline stages in `src/workflow.ts`), the fixed
workflow JSON schema (`workflow-schema`), and the session-timeout manager
(`SessionTimeoutManager` in `src/test.ts`).

The TypeScript code is shallowly embedded: parsed YAML documents become the
`JVal` tree, the external YAML parser is abstracted as a `ParseResult`
oracle, Ajv running over the fixed `workflowSchema` is transcribed
schema-node by schema-node, and every JavaScript string operation used by
the source (`includes`, `indexOf`, `split`, `trim`, template rendering of
numbers and `undefined`) is modelled on character lists.  JavaScript
runtime errors (the `error.data?.includes(...)` call throws a `TypeError`
when `data` is neither a string nor an array, and property access on
`null` inside `performAdditionalValidations` throws) are modelled with
`Except Unit`.
-/

/-! ## JavaScript string primitives, modelled on character lists -/

/-- Fuelled digit extraction (structural recursion so that the kernel
can evaluate it; the fuel `n + 1` always suffices). -/
def natDigitsRevAux : Nat → Nat → List Char
  | 0, _ => []
  | fuel + 1, n =>
    if n < 10 then [Char.ofNat (48 + n)]
    else Char.ofNat (48 + n % 10) :: natDigitsRevAux fuel (n / 10)

/-- Decimal digits of `n`, least-significant first. -/
def natDigitsRev (n : Nat) : List Char := natDigitsRevAux (n + 1) n

/-- Decimal rendering of a natural number (as JavaScript renders a
nonnegative integer in a template literal). -/
def natToStr (n : Nat) : String := String.mk (natDigitsRev n).reverse

/-- Decimal rendering of an integer. -/
def intToStr (z : Int) : String :=
  if z < 0 then String.mk ('-' :: (natDigitsRev z.natAbs).reverse)
  else natToStr z.natAbs

/-- Accumulate the value of a leading digit run, stopping at the first
non-digit (as `Number.parseInt` does after its prefix checks). -/
def parseDigitsAux (acc : Nat) : List Char → Nat
  | [] => acc
  | c :: cs => if c.isDigit then parseDigitsAux (10 * acc + (c.toNat - 48)) cs else acc

/-- `Number.parseInt(s, 10)` restricted to the shapes reachable in this
code base: an optional sign followed by a digit run (no leading
whitespace handling; the call sites only ever receive decimal index
segments produced by the validator, or non-numeric path segments, which
yield `NaN` = `none`). -/
def parseLeadingInt (s : String) : Option Int :=
  match s.data with
  | '-' :: c :: cs => if c.isDigit then some (-(parseDigitsAux 0 (c :: cs) : Int)) else none
  | c :: cs => if c.isDigit then some ((parseDigitsAux 0 (c :: cs) : Int)) else none
  | [] => none

/-- Rendering of `` `${Number.parseInt(stepIndex) + 1}` `` where `stepIndex`
may be `undefined` (absent path segment): `NaN` renders as `"NaN"`. -/
def renderIdxPlus1 (o : Option String) : String :=
  match o with
  | none => "NaN"
  | some s =>
    match parseLeadingInt s with
    | none => "NaN"
    | some z => intToStr (z + 1)

/-- First index at which `pat` occurs in `l` (JavaScript `indexOf`). -/
def indexOfAux (pat : List Char) : List Char → Nat → Option Nat
  | [], i => if pat.isEmpty then some i else none
  | l@(_ :: rest), i => if pat.isPrefixOf l then some i else indexOfAux pat rest (i + 1)

/-- JavaScript `s.indexOf(pat)`, as an `Option` (`none` = `-1`). -/
def strIndexOf (s pat : String) : Option Nat := indexOfAux pat.data s.data 0

/-- JavaScript `s.includes(pat)`. -/
def strIncludes (s pat : String) : Bool := (strIndexOf s pat).isSome

/-- JavaScript `s.startsWith(p)`. -/
def strStarts (s p : String) : Bool := p.data.isPrefixOf s.data

/-- Split a character list at every occurrence of `c`
(JavaScript `String.prototype.split` with a single-character separator). -/
def splitCharList (c : Char) : List Char → List (List Char)
  | [] => [[]]
  | x :: xs =>
    match splitCharList c xs with
    | [] => [[]]
    | h :: t => if x = c then [] :: h :: t else (x :: h) :: t

/-- JavaScript `s.split(c)` for a one-character separator. -/
def jsSplit (c : Char) (s : String) : List String := (splitCharList c s.data).map String.mk

/-- The whitespace characters relevant to the documents handled here. -/
def isWsChar (c : Char) : Bool := c = ' ' || c = '\t' || c = '\n' || c = '\r'

/-- JavaScript `s.trim()` (restricted to ASCII whitespace). -/
def jsTrim (s : String) : String :=
  String.mk (((s.data.dropWhile isWsChar).reverse.dropWhile isWsChar).reverse)

/-- `instancePath.replace(/^\//, '').replace(/\//g, '.')` from
`convertAjvError`. -/
def dottedPath (ip : String) : String :=
  let l := if ip.data.head? = some '/' then ip.data.tail else ip.data
  String.mk (l.map (fun c => if c = '/' then '.' else c))

/-- JSON-pointer escaping of one path segment (`~` → `~0`, `/` → `~1`),
as Ajv applies when building `instancePath`. -/
def escPtrSeg (s : String) : String :=
  String.mk (s.data.flatMap (fun c =>
    if c = '~' then ['~', '0'] else if c = '/' then ['~', '1'] else [c]))

/-! ## The parsed YAML value tree -/

/-- A JavaScript value as produced by `yaml.load` in `json: true` mode:
`null`, booleans, numbers (integral in every document this wizard
produces), strings, arrays, and plain objects with insertion-ordered
fields.  Objects coming from the parser have pairwise distinct keys. -/
inductive JVal where
  | null
  | bool (b : Bool)
  | num (n : Int)
  | str (s : String)
  | arr (elems : List JVal)
  | obj (fields : List (String × JVal))
/-- JavaScript `typeof`. -/
def jsTypeof : JVal → String
  | .null => "object"
  | .bool _ => "boolean"
  | .num _ => "number"
  | .str _ => "string"
  | .arr _ => "object"
  | .obj _ => "object"

/-- JavaScript falsiness of a parsed value. -/
def jsFalsy : JVal → Bool
  | .null => true
  | .bool b => !b
  | .num n => n == 0
  | .str s => s == ""
  | .arr _ => false
  | .obj _ => false

/-- Property access `v[k]` on a non-null value (`undefined` = `none`). -/
def jGet (v : JVal) (k : String) : Option JVal :=
  match v with
  | .obj fields => fields.lookup k
  | .arr elems =>
    if k = "length" then some (.num elems.length)
    else
      match elems.enum.find? (fun p => natToStr p.1 == k) with
      | some p => some p.2
      | none => none
  | .str s =>
    if k = "length" then some (.num s.length)
    else
      match s.data.enum.find? (fun p => natToStr p.1 == k) with
      | some p => some (.str (String.mk [p.2]))
      | none => none
  | _ => none

/-- Property access `v[k]` that models the `TypeError` thrown when `v` is
`null`. -/
def jGetE (v : JVal) (k : String) : Except Unit (Option JVal) :=
  match v with
  | .null => .error ()
  | _ => .ok (jGet v k)

/-- `Object.entries(v)` for the non-null values it is applied to. -/
def jsEntries : JVal → List (String × JVal)
  | .obj fields => fields
  | .arr elems => elems.enum.map (fun p => (natToStr p.1, p.2))
  | .str s => s.data.enum.map (fun p => (natToStr p.1, JVal.str (String.mk [p.2])))
  | _ => []

mutual

/-- JavaScript `String(v)` / template-literal rendering of a value. -/
def jsToString : JVal → String
  | .null => "null"
  | .bool b => if b then "true" else "false"
  | .num n => intToStr n
  | .str s => s
  | .arr l => String.intercalate "," (jsArrParts l)
  | .obj _ => "[object Object]"

/-- Element strings for array rendering; `null` elements render empty. -/
def jsArrParts : List JVal → List String
  | [] => []
  | .null :: xs => "" :: jsArrParts xs
  | x :: xs => jsToString x :: jsArrParts xs

end

/-- Rendering of `` `${error.data}` `` where `data` may be `undefined`. -/
def dataToStr (o : Option JVal) : String :=
  match o with
  | none => "undefined"
  | some v => jsToString v

/-- Rendering of an optional number in a template literal. -/
def numToStrOpt (o : Option Nat) : String :=
  match o with
  | none => "undefined"
  | some n => natToStr n

/-- Rendering of an optional string in a template literal. -/
def strOpt (o : Option String) : String :=
  match o with
  | none => "undefined"
  | some s => s

/-! ## Diagnostics (`ValidationError` from `src/workflow.ts`) -/

/-- The closed set of diagnostic type tags of the `ValidationError`
interface. -/
inductive VType where
  | syntaxError
  | missingField
  | invalidValue
  | runnerLabel
  | expression
  | action
  | glob
  | configuration
  | structureErr
  | unexpectedKey
  | invalidCharacter
  | unknownInput
  | undefinedProperty
  | typeMismatch
deriving DecidableEq, Repr

/-- The string tag of each diagnostic type, exactly as in the source's
union type. -/
def vTypeStr : VType → String
  | .syntaxError => "syntax-error"
  | .missingField => "missing-field"
  | .invalidValue => "invalid-value"
  | .runnerLabel => "runner-label"
  | .expression => "expression"
  | .action => "action"
  | .glob => "glob"
  | .configuration => "configuration"
  | .structureErr => "structure"
  | .unexpectedKey => "unexpected-key"
  | .invalidCharacter => "invalid-character"
  | .unknownInput => "unknown-input"
  | .undefinedProperty => "undefined-property"
  | .typeMismatch => "type-mismatch"

/-- Diagnostic severity. -/
inductive Severity where
  | error
  | warning
deriving DecidableEq, Repr

/-- The `ValidationError` record of `src/workflow.ts`.  `line`, `column`
and `path` are optional exactly as in the interface. -/
structure ValidationError where
  type : VType
  message : String
  line : Option Nat := none
  column : Option Nat := none
  path : Option String := none
  severity : Severity
deriving DecidableEq, Repr

/-- The `YamlLocation` record (1-based line/column plus the dotted path). -/
structure YamlLocation where
  line : Nat
  column : Nat
  path : String
deriving DecidableEq, Repr

/-! ## Raw Ajv schema errors -/

/-- A raw Ajv validation error, restricted to the fields `convertAjvError`
reads: `instancePath`, `schemaPath`, `keyword`, `params.missingProperty`,
`params.type`, `params.allowedValues`, `propertyName` and `data`. -/
structure AjvError where
  instancePath : String
  schemaPath : String
  keyword : String
  missingProperty : Option String := none
  typeParam : Option String := none
  allowedValues : Option (List String) := none
  propName : Option String := none
  data : Option JVal := none

/-- `type`-keyword error. -/
def typeErr (ip sp t : String) (v : JVal) : AjvError :=
  { instancePath := ip, schemaPath := sp ++ "/type", keyword := "type",
    typeParam := some t, data := some v }

/-- `required`-keyword error for one missing property. -/
def reqErr (ip sp k : String) : AjvError :=
  { instancePath := ip, schemaPath := sp ++ "/required", keyword := "required",
    missingProperty := some k }

/-- `enum`-keyword error. -/
def enumErr (ip sp : String) (allowed : List String) (v : JVal) : AjvError :=
  { instancePath := ip, schemaPath := sp ++ "/enum", keyword := "enum",
    allowedValues := some allowed, data := some v }

/-- `minLength`-keyword error. -/
def minLenErr (ip sp : String) (v : JVal) : AjvError :=
  { instancePath := ip, schemaPath := sp ++ "/minLength", keyword := "minLength",
    data := some v }

/-- `minItems`-keyword error. -/
def minItemsErr (ip sp : String) (v : JVal) : AjvError :=
  { instancePath := ip, schemaPath := sp ++ "/minItems", keyword := "minItems",
    data := some v }

/-- `minProperties`-keyword error. -/
def minPropsErr (ip sp : String) (v : JVal) : AjvError :=
  { instancePath := ip, schemaPath := sp ++ "/minProperties", keyword := "minProperties",
    data := some v }

/-- `oneOf`-keyword error. -/
def oneOfErr (ip sp : String) (v : JVal) : AjvError :=
  { instancePath := ip, schemaPath := sp ++ "/oneOf", keyword := "oneOf",
    data := some v }

/-- `not`-keyword error. -/
def notErr (ip sp : String) (v : JVal) : AjvError :=
  { instancePath := ip, schemaPath := sp ++ "/not", keyword := "not",
    data := some v }

/-- `contains`-keyword error. -/
def containsErr (ip sp : String) (v : JVal) : AjvError :=
  { instancePath := ip, schemaPath := sp ++ "/contains", keyword := "contains",
    data := some v }

/-! ## The workflow schema, transcribed node by node

Each `v…` function mirrors one subschema of `workflowSchema` (the object
exported by `config/workflows/workflow-schema.ts`), evaluated the way Ajv
(`allErrors: true`, draft-07 semantics) evaluates it: `type` mismatches
suppress the keywords that only apply to the mismatched shape
(`required`, `properties`, `items`, … apply only to objects/arrays/
strings respectively and pass vacuously otherwise), `enum` is checked for
any data, failed `oneOf` branches contribute their sub-errors followed by
the `oneOf` error itself, and a failed `contains` contributes a single
`contains` error. -/

/-- `required` errors for an object value (vacuous for non-objects). -/
def reqErrs (ip sp : String) (v : JVal) (ks : List String) : List AjvError :=
  match v with
  | .obj f => ks.filterMap (fun k =>
      if (f.lookup k).isSome then none else some (reqErr ip sp k))
  | _ => []

/-- Validate property `k` of object fields with `f`, if present. -/
def propErrs (fields : List (String × JVal)) (k : String)
    (f : JVal → List AjvError) : List AjvError :=
  match fields.lookup k with
  | some v => f v
  | none => []

/-- `{ type: 'string' }`. -/
def vString (ip sp : String) (v : JVal) : List AjvError :=
  match v with
  | .str _ => []
  | _ => [typeErr ip sp "string" v]

/-- `{ type: 'string', minLength: 1 }`. -/
def vStringMin1 (ip sp : String) (v : JVal) : List AjvError :=
  match v with
  | .str s => if s.length = 0 then [minLenErr ip sp v] else []
  | _ => [typeErr ip sp "string" v]

/-- `{ type: 'boolean' }`. -/
def vBoolS (ip sp : String) (v : JVal) : List AjvError :=
  match v with
  | .bool _ => []
  | _ => [typeErr ip sp "boolean" v]

/-- `{ type: 'number' }`. -/
def vNumberS (ip sp : String) (v : JVal) : List AjvError :=
  match v with
  | .num _ => []
  | _ => [typeErr ip sp "number" v]

/-- `{ type: 'null' }`. -/
def vNullS (ip sp : String) (v : JVal) : List AjvError :=
  match v with
  | .null => []
  | _ => [typeErr ip sp "null" v]

/-- `enum` membership for a list of allowed strings. -/
def enumHas (allowed : List String) (v : JVal) : Bool :=
  match v with
  | .str s => allowed.contains s
  | _ => false

/-- `{ type: 'string', enum: allowed }`. -/
def vStrEnum (ip sp : String) (allowed : List String) (v : JVal) : List AjvError :=
  vString ip sp v ++ (if enumHas allowed v then [] else [enumErr ip sp allowed v])

/-- `{ type: 'array', items: itemSchema }` with optional `minItems`. -/
def vArrOf (ip sp : String) (minI : Nat) (item : String → String → JVal → List AjvError)
    (v : JVal) : List AjvError :=
  match v with
  | .arr l =>
    (if l.length < minI then [minItemsErr ip sp v] else [])
      ++ l.enum.flatMap (fun p => item (ip ++ "/" ++ natToStr p.1) (sp ++ "/items") p.2)
  | _ => [typeErr ip sp "array" v]

/-- `oneOf` evaluation: exactly one branch must pass; on failure the
failing branches' sub-errors are reported followed by the `oneOf`
error. -/
def oneOfAt (ip sp : String) (v : JVal) (branchResults : List (List AjvError)) :
    List AjvError :=
  if (branchResults.filter List.isEmpty).length = 1 then []
  else branchResults.flatMap id ++ [oneOfErr ip sp v]

/-- `oneOf: [string, array-of-strings]` (the `needs` / `tags` shape). -/
def vStrOrArrStr (ip sp : String) (v : JVal) : List AjvError :=
  oneOfAt ip sp v
    [vString ip (sp ++ "/oneOf/0") v,
     vArrOf ip (sp ++ "/oneOf/1") 0 vString v]

/-- `oneOf: [{string, minLength 1}, {array, minItems 1, items {string, minLength 1}}]`
(the `branches` / `branches-ignore` / `runs-on` shape). -/
def vStrOrArrStrMin1 (ip sp : String) (v : JVal) : List AjvError :=
  oneOfAt ip sp v
    [vStringMin1 ip (sp ++ "/oneOf/0") v,
     vArrOf ip (sp ++ "/oneOf/1") 1 vStringMin1 v]

/-- `{ type: 'array', items: { type: 'string' } }` (the `paths` shape). -/
def vPaths (ip sp : String) (v : JVal) : List AjvError :=
  vArrOf ip sp 0 vString v

/-- The `push` trigger object branch of `on.push.oneOf[1]`. -/
def vPushObj (ip sp : String) (v : JVal) : List AjvError :=
  match v with
  | .obj f =>
    propErrs f "branches" (vStrOrArrStrMin1 (ip ++ "/branches") (sp ++ "/properties/branches"))
      ++ propErrs f "branches-ignore"
        (vStrOrArrStrMin1 (ip ++ "/branches-ignore") (sp ++ "/properties/branches-ignore"))
      ++ propErrs f "paths" (vPaths (ip ++ "/paths") (sp ++ "/properties/paths"))
      ++ propErrs f "paths-ignore" (vPaths (ip ++ "/paths-ignore") (sp ++ "/properties/paths-ignore"))
      ++ propErrs f "tags" (vStrOrArrStr (ip ++ "/tags") (sp ++ "/properties/tags"))
  | _ => [typeErr ip sp "object" v]

/-- `on.push`: `oneOf: [null, push-object]`. -/
def vOnPush (ip sp : String) (v : JVal) : List AjvError :=
  oneOfAt ip sp v
    [vNullS ip (sp ++ "/oneOf/0") v,
     vPushObj ip (sp ++ "/oneOf/1") v]

/-- The allowed `pull_request.types` values. -/
def prTypeValues : List String := ["opened", "synchronize", "reopened", "closed"]

/-- The `pull_request` trigger object branch. -/
def vPullObj (ip sp : String) (v : JVal) : List AjvError :=
  match v with
  | .obj f =>
    propErrs f "branches" (vStrOrArrStrMin1 (ip ++ "/branches") (sp ++ "/properties/branches"))
      ++ propErrs f "branches-ignore"
        (vStrOrArrStrMin1 (ip ++ "/branches-ignore") (sp ++ "/properties/branches-ignore"))
      ++ propErrs f "paths" (vPaths (ip ++ "/paths") (sp ++ "/properties/paths"))
      ++ propErrs f "paths-ignore" (vPaths (ip ++ "/paths-ignore") (sp ++ "/properties/paths-ignore"))
      ++ propErrs f "types"
        (vArrOf (ip ++ "/types") (sp ++ "/properties/types") 0
          (fun ip' sp' => vStrEnum ip' sp' prTypeValues))
  | _ => [typeErr ip sp "object" v]

/-- `on.pull_request`: `oneOf: [null, pull-request-object]`. -/
def vOnPull (ip sp : String) (v : JVal) : List AjvError :=
  oneOfAt ip sp v
    [vNullS ip (sp ++ "/oneOf/0") v,
     vPullObj ip (sp ++ "/oneOf/1") v]

/-- One `workflow_dispatch` input definition. -/
def vDispatchInput (ip sp : String) (v : JVal) : List AjvError :=
  match v with
  | .obj f =>
    propErrs f "description" (vString (ip ++ "/description") (sp ++ "/properties/description"))
      ++ propErrs f "required" (vBoolS (ip ++ "/required") (sp ++ "/properties/required"))
      ++ propErrs f "default" (vString (ip ++ "/default") (sp ++ "/properties/default"))
      ++ propErrs f "type"
        (vStrEnum (ip ++ "/type") (sp ++ "/properties/type")
          ["boolean", "choice", "environment", "string"])
  | _ => [typeErr ip sp "object" v]

/-- `workflow_dispatch.inputs`: an object whose every property is an
input definition (`additionalProperties` subschema). -/
def vDispatchInputs (ip sp : String) (v : JVal) : List AjvError :=
  match v with
  | .obj f =>
    f.flatMap (fun p =>
      vDispatchInput (ip ++ "/" ++ escPtrSeg p.1) (sp ++ "/additionalProperties") p.2)
  | _ => [typeErr ip sp "object" v]

/-- The `workflow_dispatch` object branch. -/
def vDispatchObj (ip sp : String) (v : JVal) : List AjvError :=
  match v with
  | .obj f =>
    propErrs f "inputs" (vDispatchInputs (ip ++ "/inputs") (sp ++ "/properties/inputs"))
  | _ => [typeErr ip sp "object" v]

/-- `on.workflow_dispatch`: `oneOf: [null, dispatch-object]`. -/
def vOnDispatch (ip sp : String) (v : JVal) : List AjvError :=
  oneOfAt ip sp v
    [vNullS ip (sp ++ "/oneOf/0") v,
     vDispatchObj ip (sp ++ "/oneOf/1") v]

/-- One `schedule` entry (`required: ['cron']`). -/
def vScheduleItem (ip sp : String) (v : JVal) : List AjvError :=
  match v with
  | .obj f =>
    reqErrs ip sp v ["cron"]
      ++ propErrs f "cron" (vString (ip ++ "/cron") (sp ++ "/properties/cron"))
  | _ => [typeErr ip sp "object" v]

/-- `on.schedule`: array of cron entries. -/
def vOnSchedule (ip sp : String) (v : JVal) : List AjvError :=
  vArrOf ip sp 0 vScheduleItem v

/-- The object branch of the root `on` field. -/
def vOnObj (ip sp : String) (v : JVal) : List AjvError :=
  match v with
  | .obj f =>
    (if f.length < 1 then [minPropsErr ip sp v] else [])
      ++ propErrs f "push" (vOnPush (ip ++ "/push") (sp ++ "/properties/push"))
      ++ propErrs f "pull_request" (vOnPull (ip ++ "/pull_request") (sp ++ "/properties/pull_request"))
      ++ propErrs f "workflow_dispatch"
        (vOnDispatch (ip ++ "/workflow_dispatch") (sp ++ "/properties/workflow_dispatch"))
      ++ propErrs f "schedule" (vOnSchedule (ip ++ "/schedule") (sp ++ "/properties/schedule"))
  | _ => [typeErr ip sp "object" v]

/-- The allowed string values of the root `on` field. -/
def onEnumValues : List String := ["push", "pull_request", "workflow_dispatch", "schedule"]

/-- The root `on` field: `oneOf: [enum-string, string-array, trigger-object]`. -/
def vOn (ip sp : String) (v : JVal) : List AjvError :=
  oneOfAt ip sp v
    [vStrEnum ip (sp ++ "/oneOf/0") onEnumValues v,
     vArrOf ip (sp ++ "/oneOf/1") 1 vString v,
     vOnObj ip (sp ++ "/oneOf/2") v]

/-- `{ type: 'object', additionalProperties: { type: 'string' } }`
(the `env` / `outputs` map shape). -/
def vStrMap (ip sp : String) (v : JVal) : List AjvError :=
  match v with
  | .obj f =>
    f.flatMap (fun p => vString (ip ++ "/" ++ escPtrSeg p.1) (sp ++ "/additionalProperties") p.2)
  | _ => [typeErr ip sp "object" v]

/-- `{ type: 'object', additionalProperties: true }` (`defaults`, `matrix`). -/
def vAnyObj (ip sp : String) (v : JVal) : List AjvError :=
  match v with
  | .obj _ => []
  | _ => [typeErr ip sp "object" v]

/-- The `concurrency` object branch. -/
def vConcurrencyObj (ip sp : String) (v : JVal) : List AjvError :=
  match v with
  | .obj f =>
    propErrs f "group" (vString (ip ++ "/group") (sp ++ "/properties/group"))
      ++ propErrs f "cancel-in-progress"
        (vBoolS (ip ++ "/cancel-in-progress") (sp ++ "/properties/cancel-in-progress"))
  | _ => [typeErr ip sp "object" v]

/-- `concurrency`: `oneOf: [string, concurrency-object]`. -/
def vConcurrency (ip sp : String) (v : JVal) : List AjvError :=
  oneOfAt ip sp v
    [vString ip (sp ++ "/oneOf/0") v,
     vConcurrencyObj ip (sp ++ "/oneOf/1") v]

/-- The `environment` object branch. -/
def vEnvironmentObj (ip sp : String) (v : JVal) : List AjvError :=
  match v with
  | .obj f =>
    propErrs f "name" (vString (ip ++ "/name") (sp ++ "/properties/name"))
      ++ propErrs f "url" (vString (ip ++ "/url") (sp ++ "/properties/url"))
  | _ => [typeErr ip sp "object" v]

/-- `environment`: `oneOf: [string, environment-object]`. -/
def vEnvironment (ip sp : String) (v : JVal) : List AjvError :=
  oneOfAt ip sp v
    [vString ip (sp ++ "/oneOf/0") v,
     vEnvironmentObj ip (sp ++ "/oneOf/1") v]

/-- `strategy`. -/
def vStrategy (ip sp : String) (v : JVal) : List AjvError :=
  match v with
  | .obj f =>
    propErrs f "matrix" (vAnyObj (ip ++ "/matrix") (sp ++ "/properties/matrix"))
      ++ propErrs f "fail-fast" (vBoolS (ip ++ "/fail-fast") (sp ++ "/properties/fail-fast"))
      ++ propErrs f "max-parallel" (vNumberS (ip ++ "/max-parallel") (sp ++ "/properties/max-parallel"))
  | _ => [typeErr ip sp "object" v]

/-- `credentials` of a container/service. -/
def vCredentials (ip sp : String) (v : JVal) : List AjvError :=
  match v with
  | .obj f =>
    propErrs f "username" (vString (ip ++ "/username") (sp ++ "/properties/username"))
      ++ propErrs f "password" (vString (ip ++ "/password") (sp ++ "/properties/password"))
  | _ => [typeErr ip sp "object" v]

/-- The `container` object branch (`ports` are numbers here). -/
def vContainerObj (ip sp : String) (v : JVal) : List AjvError :=
  match v with
  | .obj f =>
    propErrs f "image" (vString (ip ++ "/image") (sp ++ "/properties/image"))
      ++ propErrs f "credentials" (vCredentials (ip ++ "/credentials") (sp ++ "/properties/credentials"))
      ++ propErrs f "env" (vStrMap (ip ++ "/env") (sp ++ "/properties/env"))
      ++ propErrs f "ports" (vArrOf (ip ++ "/ports") (sp ++ "/properties/ports") 0 vNumberS)
      ++ propErrs f "volumes" (vArrOf (ip ++ "/volumes") (sp ++ "/properties/volumes") 0 vString)
      ++ propErrs f "options" (vString (ip ++ "/options") (sp ++ "/properties/options"))
  | _ => [typeErr ip sp "object" v]

/-- `container`: `oneOf: [string, container-object]`. -/
def vContainer (ip sp : String) (v : JVal) : List AjvError :=
  oneOfAt ip sp v
    [vString ip (sp ++ "/oneOf/0") v,
     vContainerObj ip (sp ++ "/oneOf/1") v]

/-- One service definition (`ports` are strings here). -/
def vServiceObj (ip sp : String) (v : JVal) : List AjvError :=
  match v with
  | .obj f =>
    propErrs f "image" (vString (ip ++ "/image") (sp ++ "/properties/image"))
      ++ propErrs f "credentials" (vCredentials (ip ++ "/credentials") (sp ++ "/properties/credentials"))
      ++ propErrs f "env" (vStrMap (ip ++ "/env") (sp ++ "/properties/env"))
      ++ propErrs f "ports" (vArrOf (ip ++ "/ports") (sp ++ "/properties/ports") 0 vString)
      ++ propErrs f "volumes" (vArrOf (ip ++ "/volumes") (sp ++ "/properties/volumes") 0 vString)
      ++ propErrs f "options" (vString (ip ++ "/options") (sp ++ "/properties/options"))
  | _ => [typeErr ip sp "object" v]

/-- `services`: object of service definitions. -/
def vServices (ip sp : String) (v : JVal) : List AjvError :=
  match v with
  | .obj f =>
    f.flatMap (fun p => vServiceObj (ip ++ "/" ++ escPtrSeg p.1) (sp ++ "/additionalProperties") p.2)
  | _ => [typeErr ip sp "object" v]

/-- The `with` block of a step: all ten known scan parameters are
optional strings; `additionalProperties: true` leaves everything else
unconstrained.  The schema contains no `anyOf` here: no combination of
(missing) credentials makes this subschema fail. -/
def vWith (ip sp : String) (v : JVal) : List AjvError :=
  match v with
  | .obj f =>
    propErrs f "polaris_server_url" (vString (ip ++ "/polaris_server_url") (sp ++ "/properties/polaris_server_url"))
      ++ propErrs f "polaris_access_token" (vString (ip ++ "/polaris_access_token") (sp ++ "/properties/polaris_access_token"))
      ++ propErrs f "blackducksca_url" (vString (ip ++ "/blackducksca_url") (sp ++ "/properties/blackducksca_url"))
      ++ propErrs f "blackducksca_token" (vString (ip ++ "/blackducksca_token") (sp ++ "/properties/blackducksca_token"))
      ++ propErrs f "coverity_url" (vString (ip ++ "/coverity_url") (sp ++ "/properties/coverity_url"))
      ++ propErrs f "coverity_user" (vString (ip ++ "/coverity_user") (sp ++ "/properties/coverity_user"))
      ++ propErrs f "coverity_passphrase" (vString (ip ++ "/coverity_passphrase") (sp ++ "/properties/coverity_passphrase"))
      ++ propErrs f "github_token" (vString (ip ++ "/github_token") (sp ++ "/properties/github_token"))
      ++ propErrs f "network_airgap" (vString (ip ++ "/network_airgap") (sp ++ "/properties/network_airgap"))
      ++ propErrs f "mark_build_status" (vString (ip ++ "/mark_build_status") (sp ++ "/properties/mark_build_status"))
  | _ => [typeErr ip sp "object" v]

/-- The `env` block of a step (same optional string parameters). -/
def vStepEnv (ip sp : String) (v : JVal) : List AjvError :=
  match v with
  | .obj f =>
    propErrs f "polaris_server_url" (vString (ip ++ "/polaris_server_url") (sp ++ "/properties/polaris_server_url"))
      ++ propErrs f "polaris_access_token" (vString (ip ++ "/polaris_access_token") (sp ++ "/properties/polaris_access_token"))
      ++ propErrs f "blackducksca_url" (vString (ip ++ "/blackducksca_url") (sp ++ "/properties/blackducksca_url"))
      ++ propErrs f "blackducksca_token" (vString (ip ++ "/blackducksca_token") (sp ++ "/properties/blackducksca_token"))
      ++ propErrs f "coverity_url" (vString (ip ++ "/coverity_url") (sp ++ "/properties/coverity_url"))
      ++ propErrs f "coverity_user" (vString (ip ++ "/coverity_user") (sp ++ "/properties/coverity_user"))
      ++ propErrs f "coverity_passphrase" (vString (ip ++ "/coverity_passphrase") (sp ++ "/properties/coverity_passphrase"))
      ++ propErrs f "github_token" (vString (ip ++ "/github_token") (sp ++ "/properties/github_token"))
  | _ => [typeErr ip sp "object" v]

/-- `not: { required: [k] }`: fails exactly when the inner `required`
succeeds (it succeeds on any non-object and on objects carrying `k`). -/
def notReqCheck (ip sp k : String) (v : JVal) : List AjvError :=
  if (match v with
      | .obj f => (f.lookup k).isSome
      | _ => true) then [notErr ip sp v]
  else []

/-- One step: typed optional properties plus the
`oneOf: [uses-without-run, run-without-uses]` constraint. -/
def vStep (ip sp : String) (v : JVal) : List AjvError :=
  match v with
  | .obj f =>
    propErrs f "id" (vString (ip ++ "/id") (sp ++ "/properties/id"))
      ++ propErrs f "name" (vString (ip ++ "/name") (sp ++ "/properties/name"))
      ++ propErrs f "if" (vString (ip ++ "/if") (sp ++ "/properties/if"))
      ++ propErrs f "uses" (vString (ip ++ "/uses") (sp ++ "/properties/uses"))
      ++ propErrs f "run" (vString (ip ++ "/run") (sp ++ "/properties/run"))
      ++ propErrs f "shell" (vString (ip ++ "/shell") (sp ++ "/properties/shell"))
      ++ propErrs f "working-directory" (vString (ip ++ "/working-directory") (sp ++ "/properties/working-directory"))
      ++ propErrs f "continue-on-error" (vBoolS (ip ++ "/continue-on-error") (sp ++ "/properties/continue-on-error"))
      ++ propErrs f "timeout-minutes" (vNumberS (ip ++ "/timeout-minutes") (sp ++ "/properties/timeout-minutes"))
      ++ propErrs f "with" (vWith (ip ++ "/with") (sp ++ "/properties/with"))
      ++ propErrs f "env" (vStepEnv (ip ++ "/env") (sp ++ "/properties/env"))
      ++ oneOfAt ip sp v
        [reqErrs ip (sp ++ "/oneOf/0") v ["uses"] ++ notReqCheck ip (sp ++ "/oneOf/0") "run" v,
         reqErrs ip (sp ++ "/oneOf/1") v ["run"] ++ notReqCheck ip (sp ++ "/oneOf/1") "uses" v]
  | _ =>
    [typeErr ip sp "object" v]
      ++ oneOfAt ip sp v
        [reqErrs ip (sp ++ "/oneOf/0") v ["uses"] ++ notReqCheck ip (sp ++ "/oneOf/0") "run" v,
         reqErrs ip (sp ++ "/oneOf/1") v ["run"] ++ notReqCheck ip (sp ++ "/oneOf/1") "uses" v]

/-- The `contains` subschema requiring one Black Duck scan step: object,
`uses` required, `uses` matching `^blackduck-inc/black-duck-security-scan@v`. -/
def bdContainsOk (v : JVal) : Bool :=
  match v with
  | .obj f =>
    match f.lookup "uses" with
    | some (.str s) => strStarts s "blackduck-inc/black-duck-security-scan@v"
    | _ => false
  | _ => false

/-- `steps`: non-empty array of steps, with the `allOf`/`contains`
requirement that at least one item is a Black Duck scan step. -/
def vStepsArr (ip sp : String) (v : JVal) : List AjvError :=
  match v with
  | .arr l =>
    (if l.length < 1 then [minItemsErr ip sp v] else [])
      ++ l.enum.flatMap (fun p => vStep (ip ++ "/" ++ natToStr p.1) (sp ++ "/items") p.2)
      ++ (if l.any bdContainsOk then [] else [containsErr ip (sp ++ "/allOf/0") v])
  | _ => [typeErr ip sp "array" v]

/-- One job (the subschema under `jobs.patternProperties`). -/
def vJob (ip sp : String) (v : JVal) : List AjvError :=
  match v with
  | .obj f =>
    reqErrs ip sp v ["runs-on"]
      ++ propErrs f "name" (vString (ip ++ "/name") (sp ++ "/properties/name"))
      ++ propErrs f "runs-on" (vStrOrArrStrMin1 (ip ++ "/runs-on") (sp ++ "/properties/runs-on"))
      ++ propErrs f "needs" (vStrOrArrStr (ip ++ "/needs") (sp ++ "/properties/needs"))
      ++ propErrs f "if" (vString (ip ++ "/if") (sp ++ "/properties/if"))
      ++ propErrs f "environment" (vEnvironment (ip ++ "/environment") (sp ++ "/properties/environment"))
      ++ propErrs f "concurrency" (vConcurrency (ip ++ "/concurrency") (sp ++ "/properties/concurrency"))
      ++ propErrs f "outputs" (vStrMap (ip ++ "/outputs") (sp ++ "/properties/outputs"))
      ++ propErrs f "env" (vStrMap (ip ++ "/env") (sp ++ "/properties/env"))
      ++ propErrs f "defaults" (vAnyObj (ip ++ "/defaults") (sp ++ "/properties/defaults"))
      ++ propErrs f "timeout-minutes" (vNumberS (ip ++ "/timeout-minutes") (sp ++ "/properties/timeout-minutes"))
      ++ propErrs f "strategy" (vStrategy (ip ++ "/strategy") (sp ++ "/properties/strategy"))
      ++ propErrs f "continue-on-error" (vBoolS (ip ++ "/continue-on-error") (sp ++ "/properties/continue-on-error"))
      ++ propErrs f "container" (vContainer (ip ++ "/container") (sp ++ "/properties/container"))
      ++ propErrs f "services" (vServices (ip ++ "/services") (sp ++ "/properties/services"))
      ++ propErrs f "steps" (vStepsArr (ip ++ "/steps") (sp ++ "/properties/steps"))
  | _ => [typeErr ip sp "object" v]

/-- A job name is validated only when it matches the `patternProperties`
regex `^[a-zA-Z_][a-zA-Z0-9_-]*$`. -/
def jobNameMatch (s : String) : Bool :=
  match s.data with
  | [] => false
  | c :: cs => (c.isAlpha || c = '_') && cs.all (fun d => d.isAlpha || d.isDigit || d = '_' || d = '-')

/-- `jobs`: non-empty object; properties whose name matches the pattern
are validated as jobs, all others are unconstrained. -/
def vJobs (ip sp : String) (v : JVal) : List AjvError :=
  match v with
  | .obj f =>
    (if f.length < 1 then [minPropsErr ip sp v] else [])
      ++ f.flatMap (fun p =>
        if jobNameMatch p.1 then
          vJob (ip ++ "/" ++ escPtrSeg p.1)
            (sp ++ "/patternProperties/job") p.2
        else [])
  | _ => [typeErr ip sp "object" v]

/-- The whole `workflowSchema`, applied to a parsed document the way
`ajv.compile(workflowSchema)` applies it. -/
def validateWorkflow (v : JVal) : List AjvError :=
  match v with
  | .obj f =>
    reqErrs "" "#" v ["name", "on", "jobs"]
      ++ propErrs f "name" (vStringMin1 "/name" "#/properties/name")
      ++ propErrs f "on" (vOn "/on" "#/properties/on")
      ++ propErrs f "env" (vStrMap "/env" "#/properties/env")
      ++ propErrs f "defaults" (vAnyObj "/defaults" "#/properties/defaults")
      ++ propErrs f "concurrency" (vConcurrency "/concurrency" "#/properties/concurrency")
      ++ propErrs f "jobs" (vJobs "/jobs" "#/properties/jobs")
  | _ => [typeErr "" "#" "object" v]

/-! ## The location indexer (`buildLocationMap`) -/

/-- The location map (`Map<string, YamlLocation>`): later `set`s override
earlier ones, so lookup takes the last binding. -/
abbrev LocMap := List (String × YamlLocation)

/-- `Map.prototype.get`, honouring overriding `set`s. -/
def lmGet (m : LocMap) (k : String) : Option YamlLocation :=
  m.foldl (fun acc p => if p.1 = k then some p.2 else acc) none

/-- `p.match(/^\d+$/)` as a Boolean. -/
def isAllDigits (s : String) : Bool := s ≠ "" && s.data.all Char.isDigit

/-- `pathParts[pathParts.length - 1]` after the filter in
`findKeyLocation`; an empty part list renders `undefined` into the
searched pattern. -/
def lastKeyOf (keyPath : String) : String :=
  let parts := (jsSplit '.' keyPath).filter (fun p => p ≠ "" && !isAllDigits p)
  match parts.getLast? with
  | some k => k
  | none => "undefined"

/-- `keyPath.match(/steps\.(\d+)/)`: the digit run after the first
occurrence of `steps.` that is followed by a digit. -/
def stepsNumScan : List Char → Option Nat
  | [] => none
  | l@(_ :: rest) =>
    if "steps.".data.isPrefixOf l then
      let digits := (l.drop 6).takeWhile Char.isDigit
      if digits.isEmpty then stepsNumScan rest else some (parseDigitsAux 0 digits)
    else stepsNumScan rest

/-- `keyPath.match(/steps\.(\d+)/)` on a string. -/
def stepsNumOf (keyPath : String) : Option Nat := stepsNumScan keyPath.data

/-- The key-pattern branch of `findKeyLocation` on one line: the column
of `` `${lastKey}:` `` when the trimmed line contains it and the raw line
yields a non-negative `indexOf` (the source checks `keyIndex !== -1`
before returning). -/
def keyHit (lastKey line trimmed : String) : Option Nat :=
  if strIncludes trimmed (lastKey ++ ":") then strIndexOf line (lastKey ++ ":") else none

/-- The scan of `findKeyLocation` over the numbered source lines.  The
inner array-item branch reproduces the source verbatim, including its
`stepCount` counter that is re-initialised to `0` on every line (so only
step number `0` can ever match). -/
def findKeyLocationGo (lastKey keyPath : String) : List (Nat × String) → YamlLocation
  | [] => ⟨1, 1, keyPath⟩
  | (i, line) :: rest =>
    if jsTrim line = "" || strStarts (jsTrim line) "#" then
      findKeyLocationGo lastKey keyPath rest
    else
      match keyHit lastKey line (jsTrim line) with
      | some keyIndex => ⟨i + 1, keyIndex + 1, keyPath⟩
      | none =>
        if strStarts (jsTrim line) "-" && strIncludes keyPath "steps" then
          match stepsNumOf keyPath with
          | some stepNumber =>
            if 0 = stepNumber then
              ⟨i + 1, (match strIndexOf line "-" with | some k => k + 1 | none => 0), keyPath⟩
            else findKeyLocationGo lastKey keyPath rest
          | none => findKeyLocationGo lastKey keyPath rest
        else findKeyLocationGo lastKey keyPath rest

/-- `findKeyLocation` from `buildLocationMap`. -/
def findKeyLocation (lines : List String) (keyPath : String) : YamlLocation :=
  findKeyLocationGo (lastKeyOf keyPath) keyPath lines.enum

mutual

/-- The `traverse` closure of `buildLocationMap`: assign every object key
and array index its dotted path and best-effort location. -/
def lmTraverse (lines : List String) : JVal → String → LocMap
  | .arr elems, currentPath => lmTraverseArr lines elems 0 currentPath
  | .obj fields, currentPath => lmTraverseFields lines fields currentPath
  | _, _ => []

/-- Array items of `traverse`. -/
def lmTraverseArr (lines : List String) : List JVal → Nat → String → LocMap
  | [], _, _ => []
  | x :: xs, i, currentPath =>
    let arrayPath := currentPath ++ "." ++ natToStr i
    (arrayPath, findKeyLocation lines arrayPath)
      :: (lmTraverse lines x arrayPath ++ lmTraverseArr lines xs (i + 1) currentPath)

/-- Object fields of `traverse`. -/
def lmTraverseFields (lines : List String) : List (String × JVal) → String → LocMap
  | [], _ => []
  | (k, x) :: rest, currentPath =>
    let fullPath := if currentPath = "" then k else currentPath ++ "." ++ k
    (fullPath, findKeyLocation lines fullPath)
      :: (lmTraverse lines x fullPath ++ lmTraverseFields lines rest currentPath)

end

/-- `buildLocationMap(yamlText, obj)`. -/
def buildLocationMap (yamlText : String) (obj : JVal) : LocMap :=
  lmTraverse (jsSplit '\n' yamlText) obj ""

/-! ## The error translator (`convertAjvError`) -/

/-- `typeof error.data` with `data` possibly `undefined`. -/
def typeofOpt (o : Option JVal) : String :=
  match o with
  | none => "undefined"
  | some v => jsTypeof v

/-- `error.data?.includes('blackduck-inc')`: optional chaining
short-circuits on `undefined`/`null`; strings search for a substring;
arrays search for an element strictly equal to the word; any other value
has no `includes` method and throws a `TypeError`. -/
def dataIncludesBD (o : Option JVal) : Except Unit Bool :=
  match o with
  | none => .ok false
  | some .null => .ok false
  | some (.str s) => .ok (strIncludes s "blackduck-inc")
  | some (.arr l) => .ok (l.any (fun x =>
      match x with
      | .str s => s == "blackduck-inc"
      | _ => false))
  | some _ => .error ()

/-- The fixed message shared by the Black Duck `uses` and `with`/`anyOf`
translator branches. -/
def bdCredsMsg : String :=
  "Provide at least one of the product URL (polaris_server_url, coverity_url, blackducksca_url, or srm_url) and access tokens to proceed."

/-- The step `oneOf` message. -/
def stepBothMsg (idx jobName : String) : String :=
  "Step " ++ idx ++ " in job '" ++ jobName
    ++ "' must have either 'uses' for actions or 'run' for shell commands. But not both together."

/-- The shared tail of the dispatch chain of `convertAjvError` (the
`with`/`anyOf`, `type`, `minLength` and `enum` branches and the final
`null`). -/
def genericTailCore (error : AjvError) (location : YamlLocation) (path : String) :
    Except Unit (Option ValidationError) :=
  if strIncludes path "with" && (error.keyword == "anyOf") then
    .ok (some { type := .configuration, message := bdCredsMsg,
                line := some location.line, column := some location.column,
                path := some path, severity := .error })
  else if error.keyword == "type" then
    .ok (some { type := .invalidValue,
                message := "Expected " ++ strOpt error.typeParam ++ " but got "
                  ++ typeofOpt error.data,
                line := some location.line, column := some location.column,
                path := some path, severity := .error })
  else if error.keyword == "minLength" then
    .ok (some { type := .invalidValue, message := "Value cannot be empty",
                line := some location.line, column := some location.column,
                path := some path, severity := .error })
  else if error.keyword == "enum" then
    match error.allowedValues with
    | some allowed =>
      .ok (some { type := .invalidValue,
                  message := "Invalid value '" ++ dataToStr error.data
                    ++ "'. Valid options: " ++ String.intercalate ", " allowed,
                  line := some location.line, column := some location.column,
                  path := some path, severity := .error })
    | none => .error ()
  else
    .ok none

/-- The dispatch chain of `convertAjvError`, abstracted over the values
the source computes up front (`path`, `location`, `jobName`,
`stepIndex`). -/
def convertAjvErrorCore (error : AjvError) (location : YamlLocation)
    (path jobName : String) (stepIdx : Option String) :
    Except Unit (Option ValidationError) :=
  if error.instancePath == "" && error.keyword == "required" then
    if error.missingProperty == some "on" then
      .ok (some { type := .missingField,
                  message := "Missing required field 'on'. Add a trigger like 'on: push' etc.",
                  line := some 1, column := some 1, path := some "on", severity := .error })
    else
      .ok (some { type := .missingField,
                  message := "Missing required field: '" ++ strOpt error.missingProperty ++ "'",
                  line := some location.line, column := some location.column,
                  path := error.missingProperty, severity := .error })
  else if error.instancePath == "" && error.keyword == "anyOf"
      && strIncludes error.schemaPath "anyOf" then
    .ok (some { type := .configuration,
                message := "Workflow must contain at least one job with a Black Duck security scan step",
                line := some location.line, column := some location.column,
                path := some "jobs", severity := .error })
  else if path == "on" && error.keyword == "oneOf" then
    .ok (some { type := .invalidValue,
                message := "Invalid trigger configuration. The 'on' field accepts: 'on: [push, pull_request]'",
                line := some location.line, column := some location.column,
                path := some "on", severity := .error })
  else if strIncludes path "jobs." && !strIncludes path "steps"
      && error.keyword == "required" && error.missingProperty == some "runs-on" then
    .ok (some { type := .runnerLabel,
                message := "Job '" ++ jobName
                  ++ "' requires 'runs-on' field. Example: runs-on: ubuntu-latest",
                line := some location.line, column := some location.column,
                path := some (path ++ ".runs-on"), severity := .error })
  else if strIncludes path "jobs." && !strIncludes path "steps"
      && error.keyword == "required" && error.missingProperty == some "steps" then
    .ok (some { type := .structureErr,
                message := "Job '" ++ jobName ++ "' requires at least one step.",
                line := some location.line, column := some location.column,
                path := some (path ++ ".steps"), severity := .error })
  else if strIncludes path "jobs." && !strIncludes path "steps"
      && error.keyword == "minItems" && strIncludes path "steps" then
    .ok (some { type := .structureErr,
                message := "Job '" ++ jobName ++ "' must contain at least one step",
                line := some location.line, column := some location.column,
                path := some (path ++ ".steps"), severity := .error })
  else if strIncludes path "steps" && error.keyword == "oneOf"
      && strIncludes error.schemaPath "oneOf" then
    .ok (some { type := .structureErr,
                message := stepBothMsg (renderIdxPlus1 stepIdx) jobName,
                line := some location.line, column := some location.column,
                path := some path, severity := .error })
  else if strIncludes path "steps" && error.keyword == "pattern"
      && error.propName == some "id" then
    .ok (some { type := .invalidValue,
                message := "Step ID must start with letter/underscore, followed by letters/numbers/underscores/hyphens. Examples: 'build', 'test_1', 'deploy-prod'",
                line := some location.line, column := some location.column,
                path := some path, severity := .error })
  else if strIncludes path "steps" && error.keyword == "pattern"
      && strIncludes path "uses" then
    .ok (some { type := .action,
                message := "Invalid action format. Use: 'owner/repo@version'. For example, blackduck-inc/black-duck-security-scan@v2",
                line := some location.line, column := some location.column,
                path := some path, severity := .error })
  else if strIncludes path "uses" then
    match dataIncludesBD error.data with
    | .error _ => .error ()
    | .ok true =>
      .ok (some { type := .action, message := bdCredsMsg,
                  line := some location.line, column := some location.column,
                  path := some path, severity := .error })
    | .ok false => genericTailCore error location path
  else genericTailCore error location path

/-- `convertAjvError(error, locationMap, workflow)`: computes the dotted
path, resolved location, job name and step index exactly as the source
does, then runs the dispatch chain. -/
def convertAjvError (error : AjvError) (locationMap : LocMap) :
    Except Unit (Option ValidationError) :=
  convertAjvErrorCore error
    ((lmGet locationMap (dottedPath error.instancePath)).getD
      ⟨1, 1, dottedPath error.instancePath⟩)
    (dottedPath error.instancePath)
    (strOpt ((jsSplit '.' (dottedPath error.instancePath)).get? 1))
    ((jsSplit '.' (dottedPath error.instancePath)).get? 3)

/-! ## `performAdditionalValidations` -/

/-- The list of recognised GitHub-hosted runner labels. -/
def availableRunners : List String :=
  ["windows-latest", "ubuntu-latest", "ubuntu-24.04", "ubuntu-24.04-arm",
   "ubuntu-22.04", "ubuntu-22.04-arm", "ubuntu-20.04", "macos-latest",
   "macos-latest-xl", "self-hosted", "x64", "arm", "arm64", "linux",
   "macos", "windows"]

/-- The fixed list of untrusted expression fragments scanned for by
`checkUntrustedExpressions`. -/
def untrustedPatternsList : List String :=
  ["github.event.head_commit.message",
   "github.event.pull_request.title",
   "github.event.pull_request.body",
   "github.event.issue.title",
   "github.event.issue.body",
   "github.event.comment.body"]

/-- The body of `_checkUntrustedExpressions(value, path)`: one
`expression` warning per matching fragment.  In the source this function
is defined but its only call site (inside `checkStrings`) is commented
out, so it contributes nothing to the pipeline. -/
def checkUntrustedExpressions (value path : String) (locationMap : LocMap) :
    List ValidationError :=
  untrustedPatternsList.filterMap (fun pat =>
    if strIncludes value pat then
      let location := (lmGet locationMap path).getD ⟨1, 1, path⟩
      some { type := .expression,
             message := "Potentially unsafe: \"" ++ pat
               ++ "\" should be passed through environment variables to prevent code injection",
             line := some location.line, column := some location.column,
             path := some path, severity := .warning }
    else none)

/-- `checkStrings(obj, basePath)`: the recursive string walk pushes no
diagnostics because its call to `checkUntrustedExpressions` is commented
out in the source. -/
def checkStrings (_obj : JVal) (_basePath : String) : List ValidationError := []

/-- Sequencing of a fallible body over a list, mirroring a JavaScript
`for`/`forEach` loop whose body can throw: the first exception aborts the
whole computation. -/
def mapME {α β : Type} (f : α → Except Unit β) : List α → Except Unit (List β)
  | [] => .ok []
  | x :: xs => do
    let y ← f x
    let ys ← mapME f xs
    pure (y :: ys)

/-- The per-job body of the unknown-runner loop.  `jobObj['runs-on']` on
a `null` job value throws. -/
def runnerCheckJob (locationMap : LocMap) (p : String × JVal) :
    Except Unit (List ValidationError) := do
  let runsOn? ← jGetE p.2 "runs-on"
  match runsOn? with
  | some rv =>
    if jsFalsy rv then pure []
    else
      let label? := if jsTypeof rv == "string" then some rv else jGet rv "0"
      match label? with
      | some lv =>
        if !jsFalsy lv && (jsTypeof lv == "string") then
          match lv with
          | .str s =>
            if !availableRunners.contains s then
              let location := (lmGet locationMap ("jobs." ++ p.1 ++ ".runs-on")).getD ⟨1, 1, ""⟩
              pure [{ type := .runnerLabel,
                      message := "Unknown runner \"" ++ s
                        ++ "\". Valid GitHub-hosted runners include: ubuntu-latest, windows-latest, macos-latest, or use self-hosted: self-hosted.",
                      line := some location.line, column := some location.column,
                      path := some ("jobs." ++ p.1 ++ ".runs-on"), severity := .error }]
            else pure []
          | _ => pure []
        else pure []
      | none => pure []
  | none => pure []

/-- The allowed keys of a `push` trigger section. -/
def validPushKeys : List String :=
  ["branches", "branches-ignore", "paths", "paths-ignore", "tags", "tags-ignore"]

/-- The allowed keys of a `pull_request` trigger section. -/
def validPullRequestKeys : List String :=
  ["branches", "branches-ignore", "paths", "paths-ignore", "types"]

/-- Unexpected-key diagnostics for one trigger section. -/
def triggerSectionErrs (locationMap : LocMap) (sectionName : String)
    (validKeys : List String) (sv : JVal) : List ValidationError :=
  (jsEntries sv).filterMap (fun q =>
    if !validKeys.contains q.1 then
      let location := (lmGet locationMap ("on." ++ sectionName ++ "." ++ q.1)).getD ⟨1, 1, ""⟩
      some { type := .unexpectedKey,
             message := "Unknown key \"" ++ q.1 ++ "\" in " ++ sectionName
               ++ " trigger. Valid keys: " ++ String.intercalate ", " validKeys,
             line := some location.line, column := some location.column,
             path := some ("on." ++ sectionName ++ "." ++ q.1), severity := .error }
    else none)

/-- The trigger-section checks of `performAdditionalValidations`. -/
def triggerKeyErrs (workflow : JVal) (locationMap : LocMap) : List ValidationError :=
  match jGet workflow "on" with
  | some onV =>
    if !jsFalsy onV && (jsTypeof onV == "object") then
      (match jGet onV "push" with
       | some pv =>
         if !jsFalsy pv && (jsTypeof pv == "object") then
           triggerSectionErrs locationMap "push" validPushKeys pv
         else []
       | none => [])
        ++ (match jGet onV "pull_request" with
            | some pv =>
              if !jsFalsy pv && (jsTypeof pv == "object") then
                triggerSectionErrs locationMap "pull_request" validPullRequestKeys pv
              else []
            | none => [])
    else []
  | none => []

/-- The per-step body of the action-input/expression loop.  Every entry
of `knownActionInputs` is commented out in the source, so the
unknown-input check never matches; `checkStrings` contributes nothing;
the only observable effect is the `TypeError` thrown by `step.uses` when
the step is `null`. -/
def stepCheckE (p : Nat × JVal) : Except Unit (List ValidationError) := do
  let _uses? ← jGetE p.2 "uses"
  pure (checkStrings p.2 "")

/-- The per-job body of the step loop. -/
def stepsLoopJob (p : String × JVal) : Except Unit (List ValidationError) := do
  let steps? ← jGetE p.2 "steps"
  match steps? with
  | some (.arr l) => do
    let parts ← mapME stepCheckE l.enum
    pure parts.flatten
  | _ => pure []

/-- The unknown-runner loop over all jobs (`if (workflow.jobs) { for … }`). -/
def runnerPart (workflow : JVal) (locationMap : LocMap) :
    Except Unit (List ValidationError) :=
  match jGet workflow "jobs" with
  | some jv =>
    if jsFalsy jv then pure ([] : List ValidationError)
    else do
      let parts ← mapME (runnerCheckJob locationMap) (jsEntries jv)
      pure parts.flatten
  | none => pure []

/-- The action-input/expression loop over all jobs. -/
def stepsPart (workflow : JVal) : Except Unit (List ValidationError) :=
  match jGet workflow "jobs" with
  | some jv =>
    if jsFalsy jv then pure ([] : List ValidationError)
    else do
      let parts ← mapME stepsLoopJob (jsEntries jv)
      pure parts.flatten
  | none => pure []

/-- `performAdditionalValidations(workflow, locationMap)`: runner check,
trigger-key check, then the step loop, accumulating into one list. -/
def performAdditionalValidations (workflow : JVal) (locationMap : LocMap) :
    Except Unit (List ValidationError) := do
  let runnerErrs ← runnerPart workflow locationMap
  let trigErrs := triggerKeyErrs workflow locationMap
  let stepErrs ← stepsPart workflow
  pure (runnerErrs ++ trigErrs ++ stepErrs)

/-! ## Deduplication and ordering -/

/-- The dedup key: the template literal
`` `${type}-${message}-${line}-${column}-${path}` `` with absent fields
rendering as `undefined`. -/
def jsKey (e : ValidationError) : String :=
  vTypeStr e.type ++ "-" ++ e.message ++ "-" ++ numToStrOpt e.line ++ "-"
    ++ numToStrOpt e.column ++ "-" ++ strOpt e.path

/-- The `filter` of `removeDuplicateErrors`, with the mutable `seen` set
made explicit. -/
def removeDuplicateErrorsGo (seen : List String) :
    List ValidationError → List ValidationError
  | [] => []
  | e :: es =>
    if seen.contains (jsKey e) then removeDuplicateErrorsGo seen es
    else e :: removeDuplicateErrorsGo (jsKey e :: seen) es

/-- `removeDuplicateErrors(errors)`: keep the first diagnostic for each
key, drop later ones unchanged. -/
def removeDuplicateErrors (errors : List ValidationError) : List ValidationError :=
  removeDuplicateErrorsGo [] errors

/-- The sort key `(a.line || 0)`. -/
def lineKey (e : ValidationError) : Nat := e.line.getD 0

/-- Stable insertion into a line-sorted list. -/
def insertByLine (e : ValidationError) : List ValidationError → List ValidationError
  | [] => [e]
  | x :: xs => if lineKey e ≤ lineKey x then e :: x :: xs else x :: insertByLine e xs

/-- The final `sort((a, b) => (a.line || 0) - (b.line || 0))`: a stable
sort by line number. -/
def sortByLine : List ValidationError → List ValidationError
  | [] => []
  | x :: xs => insertByLine x (sortByLine xs)

/-! ## `getYamlErrors` -/

/-- A parser failure mark (`error.mark`, 0-based). -/
structure YamlMark where
  line : Nat
  column : Nat
deriving DecidableEq, Repr

/-- The outcome of `yaml.load(doc, { json: true })`: a thrown
`YAMLException` carrying an optional mark, a `reason` and a `message`, or
a parsed value. -/
inductive ParseResult where
  | fail (mark : Option YamlMark) (reason : String) (message : String)
  | ok (v : JVal)

/-- `getYamlErrors(doc)`, with the external parser's outcome on `doc`
supplied as an oracle argument.  An uncaught JavaScript `TypeError`
during conversion or the additional validations surfaces as `.error`. -/
def getYamlErrors (doc : String) (pr : ParseResult) :
    Except Unit (List ValidationError) :=
  match pr with
  | .fail (some mark) reason _ =>
    .ok [{ type := .syntaxError, message := "YAML syntax error: " ++ reason,
           line := some (mark.line + 1), column := some (mark.column + 1),
           severity := .error }]
  | .fail none _ msg =>
    .ok [{ type := .syntaxError, message := "YAML parsing failed: " ++ msg,
           severity := .error }]
  | .ok parsedYaml =>
    if jsFalsy parsedYaml || !(jsTypeof parsedYaml == "object") then
      .ok [{ type := .structureErr, message := "Workflow must be a valid YAML object",
             line := some 1, severity := .error }]
    else do
      let yamlMap := buildLocationMap doc parsedYaml
      let converted ← mapME (fun e => convertAjvError e yamlMap)
        (validateWorkflow parsedYaml)
      let errors := converted.filterMap id
      let additionalErrors ← performAdditionalValidations parsedYaml yamlMap
      let uniqueErrors := removeDuplicateErrors (errors ++ additionalErrors)
      pure (sortByLine uniqueErrors)

/-! ## The session-timeout manager (`SessionTimeoutManager`, `src/test.ts`)

Only the timeout-scheduling subsystem is modelled: the session record,
the two tracked timeout handles (`warningTimeout`, `expirationTimeout`)
and the set of currently armed `setTimeout` callbacks.  Every armed
timer carries a ghost field `againstExpiry` recording the session expiry
it was scheduled against, so that staleness is expressible.  `Date.now()`
is an explicit argument.  The periodic/hourly `setInterval`s, storage and
callback sets do not interact with the warning/expiration timers and are
outside this model. -/

/-- The `SessionInfo` record. -/
structure SessionInfo where
  isValid : Bool
  expiresAt : Int
  lastActivity : Int
  warningShown : Bool
  createdAt : Int
deriving DecidableEq, Repr

/-- What an armed `setTimeout` callback would do. -/
inductive TimerKind where
  | warning
  | expiration
  | redirect
deriving DecidableEq, Repr

/-- One armed `setTimeout`, with the ghost expiry it was scheduled
against. -/
structure ArmedTimer where
  id : Nat
  kind : TimerKind
  delay : Int
  againstExpiry : Option Int
deriving DecidableEq, Repr

/-- The timer-relevant state of the singleton manager. -/
structure MgrState where
  sessionInfo : Option SessionInfo
  isInitialized : Bool
  warningTimeout : Option Nat
  expirationTimeout : Option Nat
  nextTimerId : Nat
  armed : List ArmedTimer
  lastUserActivity : Int
deriving DecidableEq, Repr

/-- `MAX_SESSION_DURATION` (8 hours in milliseconds). -/
def MAX_SESSION_DURATION : Int := 8 * 60 * 60 * 1000

/-- `setTimeout`: arm a fresh timer and return its handle. -/
def armTimer (m : MgrState) (k : TimerKind) (delay : Int) (against : Option Int) :
    Nat × MgrState :=
  (m.nextTimerId,
   { m with nextTimerId := m.nextTimerId + 1,
            armed := m.armed ++ [⟨m.nextTimerId, k, delay, against⟩] })

/-- `clearTimeout` on one handle. -/
def cancelTimer (m : MgrState) (id : Nat) : MgrState :=
  { m with armed := m.armed.filter (fun t => t.id ≠ id) }

/-- `clearTimeouts()`: cancel the two tracked handles and null them. -/
def clearTimeouts (m : MgrState) : MgrState :=
  let m1 :=
    match m.warningTimeout with
    | some id => { cancelTimer m id with warningTimeout := none }
    | none => m
  match m1.expirationTimeout with
  | some id => { cancelTimer m1 id with expirationTimeout := none }
  | none => m1

/-- `scheduleTimeouts()`: clear the tracked timers, then arm a warning
timer (tracked when the warning lead time fits, otherwise an anonymous
100 ms fallback that is NOT stored in `warningTimeout`) and an
expiration timer (tracked when the session has time left, otherwise an
anonymous 100 ms fallback). -/
def scheduleTimeouts (warningMinutes now : Int) (m : MgrState) : MgrState :=
  let m := clearTimeouts m
  match m.sessionInfo with
  | none => m
  | some si =>
    let timeUntilExpiration := si.expiresAt - now
    let warningTime := warningMinutes * 60 * 1000
    let m :=
      if timeUntilExpiration > warningTime then
        let p := armTimer m .warning (timeUntilExpiration - warningTime) (some si.expiresAt)
        { p.2 with warningTimeout := some p.1 }
      else if timeUntilExpiration > 0 then
        (armTimer m .warning 100 (some si.expiresAt)).2
      else m
    if timeUntilExpiration > 0 then
      let p := armTimer m .expiration timeUntilExpiration (some si.expiresAt)
      { p.2 with expirationTimeout := some p.1 }
    else
      (armTimer m .expiration 100 (some si.expiresAt)).2

/-- The timer-relevant effects of `clearSession()`. -/
def clearSession (m : MgrState) : MgrState :=
  let m := clearTimeouts m
  { m with sessionInfo := none, isInitialized := false }

/-- The timer-relevant effects of `forceLogout()`: clear the session and
arm the anonymous redirect timer. -/
def forceLogout (m : MgrState) : MgrState :=
  (armTimer (clearSession m) .redirect 100 none).2

/-- `extendSession()`: guard, 8-hour cutoff, recompute the expiry from
the configured timeout, then reschedule. -/
def extendSession (timeoutMinutes warningMinutes now : Int) (m : MgrState) : MgrState :=
  match m.sessionInfo with
  | none => m
  | some si =>
    if !m.isInitialized then m
    else if now - si.createdAt ≥ MAX_SESSION_DURATION then forceLogout m
    else
      let timeoutMs := min (timeoutMinutes * 60 * 1000) (24 * 60 * 60 * 1000)
      let m := { m with
        sessionInfo := some { si with expiresAt := now + timeoutMs,
                                      lastActivity := now, warningShown := false },
        lastUserActivity := now }
      scheduleTimeouts warningMinutes now m

/-! ## Concrete documents used by the claim theorems -/

/-- A step carrying both an action reference and a shell command. -/
def stepBoth : JVal :=
  .obj [("uses", .str "blackduck-inc/black-duck-security-scan@v2"),
        ("run", .str "echo hi")]

/-- A Black Duck scan step whose `with` block carries no backend
credential set (only a GitHub token). -/
def bdScanStepC3 : JVal :=
  .obj [("uses", .str "blackduck-inc/black-duck-security-scan@v2"),
        ("with", .obj [("github_token", .str "tok")])]

/-- Raw text of the workflow whose second step interpolates a pull
request title. -/
def doc2 : String :=
  "name: CI\non: push\njobs:\n  build:\n    runs-on: ubuntu-latest\n    steps:\n      - uses: blackduck-inc/black-duck-security-scan@v2\n      - run: echo github.event.pull_request.title\n"

/-- Its parse: a valid workflow whose second step's `run` value contains
the untrusted fragment `github.event.pull_request.title`. -/
def wf2 : JVal :=
  .obj [("name", .str "CI"), ("on", .str "push"),
    ("jobs", .obj [("build", .obj [("runs-on", .str "ubuntu-latest"),
      ("steps", .arr
        [.obj [("uses", .str "blackduck-inc/black-duck-security-scan@v2")],
         .obj [("run", .str "echo github.event.pull_request.title")]])])])]

/-- Raw text of the workflow with a credential-less scan step. -/
def doc3 : String :=
  "name: CI\non: push\njobs:\n  build:\n    runs-on: ubuntu-latest\n    steps:\n      - uses: blackduck-inc/black-duck-security-scan@v2\n        with:\n          github_token: tok\n"

/-- Its parse. -/
def wf3 : JVal :=
  .obj [("name", .str "CI"), ("on", .str "push"),
    ("jobs", .obj [("build", .obj [("runs-on", .str "ubuntu-latest"),
      ("steps", .arr [bdScanStepC3])])])]

/-- Raw text of the workflow whose job name `1bad` does not match the
schema's job-name pattern. -/
def docC6 : String :=
  "name: CI\non: push\njobs:\n  1bad:\n    runs-on: ubuntu-latest\n    steps:\n      - uses: blackduck-inc/black-duck-security-scan@v2\n        run: echo hi\n"

/-- Its parse: the single step of job `1bad` carries both `uses` and
`run`. -/
def wfC6 : JVal :=
  .obj [("name", .str "CI"), ("on", .str "push"),
    ("jobs", .obj [("1bad", .obj [("runs-on", .str "ubuntu-latest"),
      ("steps", .arr [stepBoth])])])]

/-- The same workflow with the conforming job name `build`. -/
def docC6b : String :=
  "name: CI\non: push\njobs:\n  build:\n    runs-on: ubuntu-latest\n    steps:\n      - uses: blackduck-inc/black-duck-security-scan@v2\n        run: echo hi\n"

/-- Its parse. -/
def wfC6b : JVal :=
  .obj [("name", .str "CI"), ("on", .str "push"),
    ("jobs", .obj [("build", .obj [("runs-on", .str "ubuntu-latest"),
      ("steps", .arr [stepBoth])])])]

/-- A session record one minute from expiry (created at time 0, expiring
at 60000 ms), with no timers armed yet. -/
def sessionM0 : MgrState :=
  { sessionInfo := some { isValid := true, expiresAt := 60000, lastActivity := 0,
                          warningShown := false, createdAt := 0 },
    isInitialized := true, warningTimeout := none, expirationTimeout := none,
    nextTimerId := 0, armed := [], lastUserActivity := 0 }


/-! ## Character-class predicates used by the step-`oneOf` analysis -/

/-- `s` contains no single-quote character. -/
@[reducible] def qfreeStr (s : String) : Prop := ∀ c ∈ s.data, c ≠ '\''

/-- Every `oneOf`-keyword error in `l` has a quote-free `instancePath`
(the property of the validator output that pins down the job-name segment
of a converted step diagnostic). -/
def oneOfQF (l : List AjvError) : Prop :=
  ∀ e ∈ l, e.keyword = "oneOf" → qfreeStr e.instancePath

/-! ## Claim theorems: translator and pipeline evaluations -/

/-- C2 (code bug): the second step's `run` string contains the untrusted
fragment, and `_checkUntrustedExpressions` would emit exactly one
`expression` warning for it — but because its call inside `checkStrings`
is commented out, `getYamlErrors` returns no diagnostic at all for this
document.  The spec's claim of exactly one `expression` warning is the
intended behaviour; the code disables it. -/
theorem untrusted_expression_check_is_disabled :
    strIncludes "echo github.event.pull_request.title" "github.event.pull_request.title" = true
    ∧ (checkUntrustedExpressions "echo github.event.pull_request.title"
        "jobs.build.steps.1.run" (buildLocationMap doc2 wf2)).length = 1
    ∧ getYamlErrors doc2 (.ok wf2) = .ok [] :=
  ⟨rfl, rfl, rfl⟩

/-- C3 (code bug): the document has a step using the scanning action
whose `with` block carries no recognized backend credential set, yet the
schema validator produces no error at all (the transcribed schema
contains no `anyOf` over the `with` block), so no `configuration`
diagnostic demanding backend credentials is ever produced.  The
`convertAjvError` branch for `with`/`anyOf` errors is unreachable
against this schema. -/
theorem scan_step_without_credentials_yields_no_diagnostic :
    bdContainsOk bdScanStepC3 = true
    ∧ jGet (JVal.obj [("github_token", JVal.str "tok")]) "polaris_server_url" = none
    ∧ validateWorkflow wf3 = []
    ∧ getYamlErrors doc3 (.ok wf3) = .ok [] :=
  ⟨rfl, rfl, rfl, rfl⟩

/-- C4: every parser failure yields exactly one diagnostic, of type
`syntax-error` with severity `error`; no later pipeline stage runs. -/
theorem yaml_parse_failure_single_syntax_error
    (doc reason msg : String) (mk : Option YamlMark) :
    ∃ d, getYamlErrors doc (.fail mk reason msg) = .ok [d]
      ∧ d.type = .syntaxError ∧ d.severity = .error := by
  cases mk with
  | none => exact ⟨_, rfl, rfl, rfl⟩
  | some m => exact ⟨_, rfl, rfl, rfl⟩

/-- C5 counterexample: a parsed list is an `object` to the `typeof`
check, so a document parsing to a list does NOT get the single
`structure` diagnostic the claim promises — schema validation runs and
reports an `invalid-value` type mismatch instead. -/
theorem list_root_not_structure_error_cex :
    getYamlErrors "- a\n" (.ok (.arr [.str "a"]))
      = .ok [{ type := .invalidValue, message := "Expected object but got object",
               line := some 1, column := some 1, path := some "", severity := .error }]
    ∧ VType.invalidValue ≠ VType.structureErr :=
  ⟨rfl, by decide⟩

/-- C5 amended: whenever the parsed value is JavaScript-falsy or not of
`typeof` `object` (bare scalars and `null`; lists count as objects and
proceed to schema validation), `getYamlErrors` returns exactly the one
`structure` diagnostic at line 1 and stops. -/
theorem non_object_root_single_structure_error (doc : String) (v : JVal)
    (h : (jsFalsy v || !(jsTypeof v == "object")) = true) :
    getYamlErrors doc (.ok v)
      = .ok [{ type := .structureErr, message := "Workflow must be a valid YAML object",
               line := some 1, severity := .error }] := by
  simp only [getYamlErrors]
  rw [if_pos h]

/-- Witness for the amended C5 theorem at the scalar document `42`. -/
theorem non_object_root_single_structure_error_witness :
    (jsFalsy (JVal.num 42) || !(jsTypeof (JVal.num 42) == "object")) = true
    ∧ getYamlErrors "42\n" (.ok (.num 42))
      = .ok [{ type := .structureErr, message := "Workflow must be a valid YAML object",
               line := some 1, severity := .error }] :=
  ⟨rfl, non_object_root_single_structure_error "42\n" (.num 42) rfl⟩

/-- C6 counterexample: the job name `1bad` does not match the schema's
`patternProperties` regex, so its steps are never validated: the
document's only step carries both `uses` and `run`, yet `getYamlErrors`
returns no diagnostic at all — in particular no `structure` diagnostic
naming the step and the job. -/
theorem both_uses_and_run_unmatched_job_name_cex :
    ((jGet stepBoth "uses").isSome && (jGet stepBoth "run").isSome) = true
    ∧ jobNameMatch "1bad" = false
    ∧ getYamlErrors docC6 (.ok wfC6) = .ok [] :=
  ⟨rfl, rfl, rfl⟩

/-- C9 (code bug): with the session one minute from expiry (inside the
five-minute warning window), `scheduleTimeouts` arms the 100 ms fallback
warning timer WITHOUT storing its handle in `warningTimeout`; the
subsequent `extendSession` recomputes the expiry to 1801000 and
reschedules, but `clearTimeouts` can only cancel the tracked handles, so
the fallback warning timer armed against the superseded expiry 60000 is
still armed afterwards and will fire against the extended session. -/
theorem extendSession_leaves_stale_warning_timer :
    (scheduleTimeouts 5 0 sessionM0).warningTimeout = none
    ∧ ((scheduleTimeouts 5 0 sessionM0).armed.any
        (fun t => t.kind == .warning)) = true
    ∧ ((extendSession 30 5 1000 (scheduleTimeouts 5 0 sessionM0)).armed.any
        (fun t => t.kind == .warning && t.againstExpiry == some 60000)) = true
    ∧ (extendSession 30 5 1000 (scheduleTimeouts 5 0 sessionM0)).sessionInfo.map
        SessionInfo.expiresAt = some 1801000 := by
  refine ⟨rfl, rfl, rfl, rfl⟩

/-! ## Properties of `removeDuplicateErrors` -/

theorem containsStr_false_iff (l : List String) (s : String) :
    l.contains s = false ↔ s ∉ l := by
  simp

theorem removeDuplicateErrorsGo_sublist (seen : List String) (l : List ValidationError) :
    (removeDuplicateErrorsGo seen l).Sublist l := by
  induction l generalizing seen with
  | nil => simp [removeDuplicateErrorsGo]
  | cons e es ih =>
    unfold removeDuplicateErrorsGo
    split
    · exact (ih seen).cons e
    · exact (ih (jsKey e :: seen)).cons₂ e

theorem removeDuplicateErrorsGo_key_not_seen (seen : List String)
    (l : List ValidationError) :
    ∀ e ∈ removeDuplicateErrorsGo seen l, jsKey e ∉ seen := by
  induction l generalizing seen with
  | nil => simp [removeDuplicateErrorsGo]
  | cons x xs ih =>
    unfold removeDuplicateErrorsGo
    split
    · exact ih seen
    · next hx =>
      intro e he
      rcases List.mem_cons.mp he with rfl | he'
      · exact (containsStr_false_iff _ _).mp
          (by revert hx; cases seen.contains (jsKey e) <;> simp)
      · exact fun hin => ih (jsKey x :: seen) e he' (List.mem_cons_of_mem _ hin)

theorem removeDuplicateErrorsGo_pairwise (seen : List String) (l : List ValidationError) :
    (removeDuplicateErrorsGo seen l).Pairwise (fun a b => jsKey a ≠ jsKey b) := by
  induction l generalizing seen with
  | nil => simp [removeDuplicateErrorsGo]
  | cons x xs ih =>
    unfold removeDuplicateErrorsGo
    split
    · exact ih seen
    · refine List.Pairwise.cons (fun b hb hkey => ?_) (ih (jsKey x :: seen))
      exact removeDuplicateErrorsGo_key_not_seen (jsKey x :: seen) xs b hb
        (hkey ▸ List.mem_cons_self _ _)

theorem removeDuplicateErrorsGo_complete (seen : List String) (l : List ValidationError) :
    ∀ d ∈ l, jsKey d ∉ seen →
      ∃ d' ∈ removeDuplicateErrorsGo seen l, jsKey d' = jsKey d := by
  induction l generalizing seen with
  | nil => simp
  | cons x xs ih =>
    intro d hd hs
    unfold removeDuplicateErrorsGo
    rcases List.mem_cons.mp hd with rfl | hd'
    · rw [if_neg (by simp [hs])]
      exact ⟨d, List.mem_cons_self d _, rfl⟩
    · split
      · exact ih seen d hd' hs
      · by_cases hk : jsKey d = jsKey x
        · exact ⟨x, List.mem_cons_self x _, hk.symm⟩
        · obtain ⟨d', hd'', hk'⟩ := ih (jsKey x :: seen) d hd'
            (by simp only [List.mem_cons]; rintro (h | h); exact hk h; exact hs h)
          exact ⟨d', List.mem_cons_of_mem x hd'', hk'⟩

theorem removeDuplicateErrorsGo_fixed (seen : List String) (l : List ValidationError)
    (hns : ∀ e ∈ l, jsKey e ∉ seen)
    (hpw : l.Pairwise (fun a b => jsKey a ≠ jsKey b)) :
    removeDuplicateErrorsGo seen l = l := by
  induction l generalizing seen with
  | nil => simp [removeDuplicateErrorsGo]
  | cons x xs ih =>
    unfold removeDuplicateErrorsGo
    rw [if_neg (by simp [hns x (List.mem_cons_self x _)])]
    have hpw' := List.pairwise_cons.mp hpw
    refine congrArg (x :: ·) (ih (jsKey x :: seen) (fun e he => ?_) hpw'.2)
    simp only [List.mem_cons]
    rintro (h | h)
    · exact hpw'.1 e he h.symm
    · exact hns e (List.mem_cons_of_mem x he) h

/-- C8: deduplication is idempotent — applied to its own output it
returns that output unchanged, with no further collapsing or
reordering. -/
theorem removeDuplicateErrors_idempotent (l : List ValidationError) :
    removeDuplicateErrors (removeDuplicateErrors l) = removeDuplicateErrors l :=
  removeDuplicateErrorsGo_fixed [] _ (fun e _ => List.not_mem_nil (jsKey e))
    (removeDuplicateErrorsGo_pairwise [] l)

/-- Two diagnostics agreeing on message, line and column but differing in
type (and severity). -/
def d1cex : ValidationError :=
  { type := .structureErr, message := "m", line := some 1, column := some 1,
    path := some "p", severity := .warning }

/-- Its companion with severity `error`. -/
def d2cex : ValidationError :=
  { type := .action, message := "m", line := some 1, column := some 1,
    path := some "p", severity := .error }

/-- C1 counterexample: the dedup key used by the code is the full
`type-message-line-column-path` string, not `(message, line, column)`:
two diagnostics sharing message/line/column but differing in type are
both kept — there is no single merged diagnostic for that key, no
type/path union, and the first entry keeps severity `warning` even
though the other contributor is an `error`. -/
theorem dedupe_same_message_line_column_not_merged_cex :
    d1cex.message = d2cex.message ∧ d1cex.line = d2cex.line
    ∧ d1cex.column = d2cex.column ∧ d1cex.severity = .warning
    ∧ d2cex.severity = .error
    ∧ removeDuplicateErrors [d1cex, d2cex] = [d1cex, d2cex]
    ∧ (removeDuplicateErrors [d1cex, d2cex]).length = 2 := by
  decide

/-- C1 amended: `removeDuplicateErrors` keys on the rendered
`type-message-line-column-path` string; it keeps the first diagnostic of
each key unchanged and drops later exact-key duplicates, performing no
type/path accumulation and no severity widening: the output is a sublist
of the input with pairwise distinct keys in which every input key is
still represented. -/
theorem removeDuplicateErrors_keeps_first_of_each_full_key (l : List ValidationError) :
    (removeDuplicateErrors l).Sublist l
    ∧ (removeDuplicateErrors l).Pairwise (fun a b => jsKey a ≠ jsKey b)
    ∧ (∀ d ∈ l, ∃ d' ∈ removeDuplicateErrors l, jsKey d' = jsKey d) :=
  ⟨removeDuplicateErrorsGo_sublist [] l,
   removeDuplicateErrorsGo_pairwise [] l,
   fun d hd => removeDuplicateErrorsGo_complete [] l d hd (List.not_mem_nil _)⟩

/-- Witness for the amended C1 theorem: among the three concrete
diagnostics, each key survives deduplication. -/
theorem removeDuplicateErrors_keeps_first_witness :
    ∃ d' ∈ removeDuplicateErrors [d1cex, d2cex, d1cex], jsKey d' = jsKey d1cex :=
  (removeDuplicateErrors_keeps_first_of_each_full_key [d1cex, d2cex, d1cex]).2.2
    d1cex (by decide)

/-! ## Properties of the final sort -/

theorem mem_insertByLine (e a : ValidationError) (l : List ValidationError) :
    a ∈ insertByLine e l ↔ a = e ∨ a ∈ l := by
  induction l with
  | nil => simp [insertByLine]
  | cons x xs ih =>
    unfold insertByLine
    split
    · simp [List.mem_cons]
    · simp only [List.mem_cons, ih]
      tauto

theorem sorted_insertByLine (e : ValidationError) (l : List ValidationError)
    (h : l.Pairwise (fun a b => lineKey a ≤ lineKey b)) :
    (insertByLine e l).Pairwise (fun a b => lineKey a ≤ lineKey b) := by
  induction l with
  | nil => simp [insertByLine]
  | cons x xs ih =>
    have hx := List.pairwise_cons.mp h
    unfold insertByLine
    split
    · next hle =>
      refine List.Pairwise.cons (fun b hb => ?_) h
      rcases List.mem_cons.mp hb with rfl | hb'
      · exact hle
      · exact le_trans hle (hx.1 b hb')
    · next hgt =>
      refine List.Pairwise.cons (fun b hb => ?_) (ih hx.2)
      rcases (mem_insertByLine e b xs).mp hb with rfl | hb'
      · omega
      · exact hx.1 b hb'

theorem sorted_sortByLine (l : List ValidationError) :
    (sortByLine l).Pairwise (fun a b => lineKey a ≤ lineKey b) := by
  induction l with
  | nil => simp [sortByLine]
  | cons x xs ih => exact sorted_insertByLine x _ ih

theorem mem_sortByLine (a : ValidationError) (l : List ValidationError) :
    a ∈ sortByLine l ↔ a ∈ l := by
  induction l with
  | nil => simp [sortByLine]
  | cons x xs ih =>
    unfold sortByLine
    rw [mem_insertByLine]
    simp [ih]

/-! ## Membership through `mapM` over `Except` -/

theorem mapME_ok_mem {α β : Type} (f : α → Except Unit β) :
    ∀ (l : List α) (ys : List β), mapME f l = .ok ys →
      (∀ y ∈ ys, ∃ x ∈ l, f x = .ok y) ∧ (∀ x ∈ l, ∃ y ∈ ys, f x = .ok y) := by
  intro l
  induction l with
  | nil =>
    intro ys h
    simp only [mapME, Except.ok.injEq] at h
    subst h
    simp
  | cons x xs ih =>
    intro ys h
    simp only [mapME] at h
    cases hfx : f x with
    | error e => simp [hfx, bind, Except.bind] at h
    | ok y =>
      cases hxs : mapME f xs with
      | error e => simp [hfx, hxs, bind, Except.bind] at h
      | ok ys' =>
        simp only [hfx, hxs, bind, Except.bind, pure, Except.pure, Except.ok.injEq] at h
        subst h
        obtain ⟨h1, h2⟩ := ih ys' hxs
        constructor
        · intro z hz
          rcases List.mem_cons.mp hz with rfl | hz'
          · exact ⟨x, List.mem_cons_self x _, hfx⟩
          · obtain ⟨w, hw, hfw⟩ := h1 z hz'
            exact ⟨w, List.mem_cons_of_mem x hw, hfw⟩
        · intro w hw
          rcases List.mem_cons.mp hw with rfl | hw'
          · exact ⟨y, List.mem_cons_self y _, hfx⟩
          · obtain ⟨z, hz, hfz⟩ := h2 w hw'
            exact ⟨z, List.mem_cons_of_mem y hz, hfz⟩

/-! ## Every recorded location has a 1-based line -/

theorem lmGet_mem (m : LocMap) (k : String) (loc : YamlLocation)
    (h : lmGet m k = some loc) : ∃ q ∈ m, q.2 = loc := by
  have aux : ∀ (m' : LocMap) (acc : Option YamlLocation),
      m'.foldl (fun acc p => if p.1 = k then some p.2 else acc) acc = some loc →
      acc = some loc ∨ ∃ q ∈ m', q.2 = loc := by
    intro m'
    induction m' with
    | nil => intro acc h'; exact Or.inl h'
    | cons p ps ih =>
      intro acc h'
      rw [List.foldl_cons] at h'
      rcases ih _ h' with hacc | ⟨q, hq, hq2⟩
      · by_cases hp : p.1 = k
        · rw [if_pos hp] at hacc
          exact Or.inr ⟨p, List.mem_cons_self p _, by injection hacc⟩
        · rw [if_neg hp] at hacc
          exact Or.inl hacc
      · exact Or.inr ⟨q, List.mem_cons_of_mem p hq, hq2⟩
  rcases aux m none h with hacc | hq
  · exact absurd hacc (by simp)
  · exact hq

/-- The default-or-looked-up location always has a 1-based line, given
that every map entry does. -/
theorem locD_line_pos (m : LocMap) (hm : ∀ q ∈ m, 1 ≤ q.2.line) (p : String) :
    1 ≤ ((lmGet m p).getD ⟨1, 1, p⟩).line := by
  cases hg : lmGet m p with
  | none => simp [Option.getD]
  | some loc =>
    obtain ⟨q, hq, hq2⟩ := lmGet_mem m p loc hg
    simpa [Option.getD, ← hq2] using hm q hq

theorem findKeyLocationGo_line_pos (lastKey keyPath : String) :
    ∀ ls : List (Nat × String), 1 ≤ (findKeyLocationGo lastKey keyPath ls).line := by
  intro ls
  induction ls with
  | nil => simp [findKeyLocationGo]
  | cons p rest ih =>
    obtain ⟨i, line⟩ := p
    unfold findKeyLocationGo
    split
    · exact ih
    · split
      · exact Nat.succ_le_succ (Nat.zero_le i)
      · split
        · split
          · split
            · exact Nat.succ_le_succ (Nat.zero_le i)
            · exact ih
          · exact ih
        · exact ih

theorem findKeyLocation_line_pos (lines : List String) (keyPath : String) :
    1 ≤ (findKeyLocation lines keyPath).line :=
  findKeyLocationGo_line_pos _ keyPath _

mutual

theorem lmTraverse_line_pos (lines : List String) (v : JVal) (cp : String) :
    ∀ q ∈ lmTraverse lines v cp, 1 ≤ q.2.line := by
  cases v with
  | arr elems => exact lmTraverseArr_line_pos lines elems 0 cp
  | obj fields => exact lmTraverseFields_line_pos lines fields cp
  | null => simp [lmTraverse]
  | bool b => simp [lmTraverse]
  | num n => simp [lmTraverse]
  | str s => simp [lmTraverse]

theorem lmTraverseArr_line_pos (lines : List String) (l : List JVal) (i : Nat)
    (cp : String) : ∀ q ∈ lmTraverseArr lines l i cp, 1 ≤ q.2.line := by
  cases l with
  | nil => simp [lmTraverseArr]
  | cons x xs =>
    intro q hq
    unfold lmTraverseArr at hq
    rcases List.mem_cons.mp hq with rfl | hq'
    · exact findKeyLocation_line_pos lines _
    · rcases List.mem_append.mp hq' with h | h
      · exact lmTraverse_line_pos lines x _ q h
      · exact lmTraverseArr_line_pos lines xs (i + 1) cp q h

theorem lmTraverseFields_line_pos (lines : List String) (l : List (String × JVal))
    (cp : String) : ∀ q ∈ lmTraverseFields lines l cp, 1 ≤ q.2.line := by
  cases l with
  | nil => simp [lmTraverseFields]
  | cons x xs =>
    intro q hq
    unfold lmTraverseFields at hq
    rcases List.mem_cons.mp hq with rfl | hq'
    · exact findKeyLocation_line_pos lines _
    · rcases List.mem_append.mp hq' with h | h
      · exact lmTraverse_line_pos lines x.2 _ q h
      · exact lmTraverseFields_line_pos lines xs cp q h

end

theorem buildLocationMap_line_pos (doc : String) (v : JVal) :
    ∀ q ∈ buildLocationMap doc v, 1 ≤ q.2.line :=
  lmTraverse_line_pos _ v ""

/-- Generalised: any lookup-with-default whose default line is 1-based. -/
theorem locD_line_pos' (m : LocMap) (hm : ∀ q ∈ m, 1 ≤ q.2.line)
    (p : String) (dflt : YamlLocation) (hd : 1 ≤ dflt.line) :
    1 ≤ ((lmGet m p).getD dflt).line := by
  cases hg : lmGet m p with
  | none => simpa [Option.getD] using hd
  | some loc =>
    obtain ⟨q, hq, hq2⟩ := lmGet_mem m p loc hg
    simpa [Option.getD, ← hq2] using hm q hq

/-! ## Stage invariants: severity and 1-based lines -/

theorem genericTailCore_ok_inv (e : AjvError) (loc : YamlLocation)
    (path : String) (hl : 1 ≤ loc.line) (d : ValidationError)
    (h : genericTailCore e loc path = .ok (some d)) :
    d.severity = .error ∧ ∀ n, d.line = some n → 1 ≤ n := by
  delta genericTailCore at h
  repeat' split at h
  all_goals
    first
    | exact Except.noConfusion h
    | exact Option.noConfusion (Except.ok.inj h)
    | (injection h with h'
       injection h' with h''
       subst h''
       refine ⟨rfl, fun n hn => ?_⟩
       injection hn with hn'
       subst hn'
       exact hl)

theorem genericTailCore_out (e : AjvError) (loc : YamlLocation)
    (path : String) (d : ValidationError)
    (h : genericTailCore e loc path = .ok (some d)) :
    d.severity = .error ∧ d.line = some loc.line ∧ d.type ≠ .structureErr := by
  delta genericTailCore at h
  repeat' split at h
  all_goals
    first
    | exact Except.noConfusion h
    | exact Option.noConfusion (Except.ok.inj h)
    | (obtain rfl : _ = d := Option.some.inj (Except.ok.inj h)
       exact ⟨rfl, rfl, fun hds => VType.noConfusion hds⟩)

theorem convertAjvErrorCore_out (e : AjvError) (loc : YamlLocation)
    (path jobName : String) (stepIdx : Option String) (d : ValidationError)
    (h : convertAjvErrorCore e loc path jobName stepIdx = .ok (some d)) :
    d.severity = .error
    ∧ (d.line = some 1 ∨ d.line = some loc.line)
    ∧ (d.type = .structureErr →
        (e.keyword = "required" ∧ strIncludes path "jobs." = true
          ∧ strIncludes path "steps" = false
          ∧ d.message = "Job '" ++ jobName ++ "' requires at least one step.")
        ∨ (e.keyword = "oneOf" ∧ strIncludes path "steps" = true
          ∧ d.message = stepBothMsg (renderIdxPlus1 stepIdx) jobName)) := by
  delta convertAjvErrorCore at h
  by_cases c1 : (e.instancePath == "" && e.keyword == "required") = true
  · rw [if_pos c1] at h
    by_cases c1b : (e.missingProperty == some "on") = true
    · rw [if_pos c1b] at h
      obtain rfl : _ = d := Option.some.inj (Except.ok.inj h)
      exact ⟨rfl, Or.inl rfl, fun hds => VType.noConfusion hds⟩
    · rw [if_neg c1b] at h
      obtain rfl : _ = d := Option.some.inj (Except.ok.inj h)
      exact ⟨rfl, Or.inr rfl, fun hds => VType.noConfusion hds⟩
  · rw [if_neg c1] at h
    by_cases c2 : (e.instancePath == "" && e.keyword == "anyOf"
        && strIncludes e.schemaPath "anyOf") = true
    · rw [if_pos c2] at h
      obtain rfl : _ = d := Option.some.inj (Except.ok.inj h)
      exact ⟨rfl, Or.inr rfl, fun hds => VType.noConfusion hds⟩
    · rw [if_neg c2] at h
      by_cases c3 : (path == "on" && e.keyword == "oneOf") = true
      · rw [if_pos c3] at h
        obtain rfl : _ = d := Option.some.inj (Except.ok.inj h)
        exact ⟨rfl, Or.inr rfl, fun hds => VType.noConfusion hds⟩
      · rw [if_neg c3] at h
        by_cases c4 : (strIncludes path "jobs." && !strIncludes path "steps"
            && e.keyword == "required" && e.missingProperty == some "runs-on") = true
        · rw [if_pos c4] at h
          obtain rfl : _ = d := Option.some.inj (Except.ok.inj h)
          exact ⟨rfl, Or.inr rfl, fun hds => VType.noConfusion hds⟩
        · rw [if_neg c4] at h
          by_cases c5 : (strIncludes path "jobs." && !strIncludes path "steps"
              && e.keyword == "required" && e.missingProperty == some "steps") = true
          · rw [if_pos c5] at h
            obtain rfl : _ = d := Option.some.inj (Except.ok.inj h)
            simp only [Bool.and_eq_true, beq_iff_eq, Bool.not_eq_true'] at c5
            obtain ⟨⟨⟨hA, hB⟩, hC⟩, hD⟩ := c5
            exact ⟨rfl, Or.inr rfl, fun _ => Or.inl ⟨hC, hA, hB, rfl⟩⟩
          · rw [if_neg c5] at h
            by_cases c6 : (strIncludes path "jobs." && !strIncludes path "steps"
                && e.keyword == "minItems" && strIncludes path "steps") = true
            · simp only [Bool.and_eq_true, Bool.not_eq_true'] at c6
              obtain ⟨⟨⟨_, hB⟩, _⟩, hD⟩ := c6
              exact absurd hD (by simp [hB])
            · rw [if_neg c6] at h
              by_cases c7 : (strIncludes path "steps" && e.keyword == "oneOf"
                  && strIncludes e.schemaPath "oneOf") = true
              · rw [if_pos c7] at h
                obtain rfl : _ = d := Option.some.inj (Except.ok.inj h)
                simp only [Bool.and_eq_true, beq_iff_eq] at c7
                obtain ⟨⟨hA, hB⟩, hC⟩ := c7
                exact ⟨rfl, Or.inr rfl, fun _ => Or.inr ⟨hB, hA, rfl⟩⟩
              · rw [if_neg c7] at h
                by_cases c8 : (strIncludes path "steps" && e.keyword == "pattern"
                    && e.propName == some "id") = true
                · rw [if_pos c8] at h
                  obtain rfl : _ = d := Option.some.inj (Except.ok.inj h)
                  exact ⟨rfl, Or.inr rfl, fun hds => VType.noConfusion hds⟩
                · rw [if_neg c8] at h
                  by_cases c9 : (strIncludes path "steps" && e.keyword == "pattern"
                      && strIncludes path "uses") = true
                  · rw [if_pos c9] at h
                    obtain rfl : _ = d := Option.some.inj (Except.ok.inj h)
                    exact ⟨rfl, Or.inr rfl, fun hds => VType.noConfusion hds⟩
                  · rw [if_neg c9] at h
                    by_cases c10 : (strIncludes path "uses") = true
                    · rw [if_pos c10] at h
                      cases hdb : dataIncludesBD e.data with
                      | error u => rw [hdb] at h; exact Except.noConfusion h
                      | ok b =>
                        rw [hdb] at h
                        cases b with
                        | true =>
                          obtain rfl : _ = d := Option.some.inj (Except.ok.inj h)
                          exact ⟨rfl, Or.inr rfl, fun hds => VType.noConfusion hds⟩
                        | false =>
                          obtain ⟨h1, h2, h3⟩ := genericTailCore_out e loc path d h
                          exact ⟨h1, Or.inr h2, fun hds => absurd hds h3⟩
                    · rw [if_neg c10] at h
                      obtain ⟨h1, h2, h3⟩ := genericTailCore_out e loc path d h
                      exact ⟨h1, Or.inr h2, fun hds => absurd hds h3⟩

theorem convertAjvErrorCore_ok_inv (e : AjvError) (loc : YamlLocation)
    (path jobName : String) (stepIdx : Option String) (hl : 1 ≤ loc.line)
    (d : ValidationError)
    (h : convertAjvErrorCore e loc path jobName stepIdx = .ok (some d)) :
    d.severity = .error ∧ ∀ n, d.line = some n → 1 ≤ n := by
  obtain ⟨h1, h2, _⟩ := convertAjvErrorCore_out e loc path jobName stepIdx d h
  refine ⟨h1, fun n hn => ?_⟩
  rcases h2 with h2 | h2 <;> rw [h2] at hn <;> injection hn with hn' <;> omega

theorem convertAjvError_ok_inv (e : AjvError) (m : LocMap)
    (hm : ∀ q ∈ m, 1 ≤ q.2.line) (d : ValidationError)
    (h : convertAjvError e m = .ok (some d)) :
    d.severity = .error ∧ ∀ n, d.line = some n → 1 ≤ n :=
  convertAjvErrorCore_ok_inv e _ _ _ _ (locD_line_pos' m hm _ _ (le_refl 1)) d h

theorem runnerCheckJob_ok_inv (m : LocMap) (hm : ∀ q ∈ m, 1 ≤ q.2.line)
    (p : String × JVal) (l : List ValidationError)
    (h : runnerCheckJob m p = .ok l) :
    ∀ d ∈ l, d.type = .runnerLabel ∧ d.severity = .error
      ∧ ∀ n, d.line = some n → 1 ≤ n := by
  unfold runnerCheckJob at h
  cases hj : jGetE p.2 "runs-on" with
  | error u => rw [hj] at h; exact Except.noConfusion h
  | ok o =>
    rw [hj] at h
    simp only [bind, Except.bind] at h
    repeat' split at h
    all_goals
      first
      | (obtain rfl : _ = l := Except.ok.inj h
         intro d hd
         exact absurd hd (List.not_mem_nil d))
      | (obtain rfl : _ = l := Except.ok.inj h
         intro d hd
         rcases List.mem_cons.mp hd with rfl | hd'
         · exact ⟨rfl, rfl, fun n hn => by
             injection hn with hn'
             subst hn'
             exact locD_line_pos' m hm _ _ (le_refl 1)⟩
         · exact absurd hd' (List.not_mem_nil d))

theorem triggerSectionErrs_inv (m : LocMap) (hm : ∀ q ∈ m, 1 ≤ q.2.line)
    (sec : String) (keys : List String) (sv : JVal) :
    ∀ d ∈ triggerSectionErrs m sec keys sv,
      d.type = .unexpectedKey ∧ d.severity = .error
        ∧ ∀ n, d.line = some n → 1 ≤ n := by
  intro d hd
  unfold triggerSectionErrs at hd
  obtain ⟨q, _, hq2⟩ := List.mem_filterMap.mp hd
  split at hq2
  · obtain rfl : _ = d := Option.some.inj hq2
    exact ⟨rfl, rfl, fun n hn => by
      injection hn with hn'
      subst hn'
      exact locD_line_pos' m hm _ _ (le_refl 1)⟩
  · exact absurd hq2 (by simp)

theorem triggerKeyErrs_inv (w : JVal) (m : LocMap) (hm : ∀ q ∈ m, 1 ≤ q.2.line) :
    ∀ d ∈ triggerKeyErrs w m,
      d.type = .unexpectedKey ∧ d.severity = .error
        ∧ ∀ n, d.line = some n → 1 ≤ n := by
  intro d hd
  unfold triggerKeyErrs at hd
  repeat' split at hd
  all_goals
    first
    | exact absurd hd (List.not_mem_nil d)
    | (rcases List.mem_append.mp hd with h' | h'
       all_goals
         first
         | exact absurd h' (List.not_mem_nil d)
         | (repeat' split at h'
            all_goals
              first
              | exact absurd h' (List.not_mem_nil d)
              | exact triggerSectionErrs_inv m hm _ _ _ d h'))

theorem stepCheckE_ok_nil (p : Nat × JVal) (l : List ValidationError)
    (h : stepCheckE p = .ok l) : l = [] := by
  unfold stepCheckE at h
  cases hj : jGetE p.2 "uses" with
  | error u => rw [hj] at h; exact Except.noConfusion h
  | ok o =>
    rw [hj] at h
    simp only [bind, Except.bind, pure, Except.pure, checkStrings] at h
    exact (Except.ok.inj h).symm

theorem stepsLoopJob_ok_nil (p : String × JVal) (l : List ValidationError)
    (h : stepsLoopJob p = .ok l) : l = [] := by
  unfold stepsLoopJob at h
  cases hj : jGetE p.2 "steps" with
  | error u => rw [hj] at h; exact Except.noConfusion h
  | ok o =>
    rw [hj] at h
    simp only [bind, Except.bind] at h
    split at h
    · next l' =>
      cases hmm : mapME stepCheckE l'.enum with
      | error u => rw [hmm] at h; exact Except.noConfusion h
      | ok parts =>
        rw [hmm] at h
        simp only [pure, Except.pure] at h
        obtain rfl : _ = l := Except.ok.inj h
        rw [List.eq_nil_iff_forall_not_mem]
        intro d hd
        obtain ⟨part, hpart, hdp⟩ := List.mem_flatten.mp hd
        obtain ⟨x, _, hfx⟩ := (mapME_ok_mem stepCheckE l'.enum parts hmm).1 part hpart
        rw [stepCheckE_ok_nil x part hfx] at hdp
        exact absurd hdp (List.not_mem_nil d)
    · simp only [pure, Except.pure] at h
      exact (Except.ok.inj h).symm

theorem runnerPart_ok_inv (w : JVal) (m : LocMap) (hm : ∀ q ∈ m, 1 ≤ q.2.line)
    (l : List ValidationError) (h : runnerPart w m = .ok l) :
    ∀ d ∈ l, d.type = .runnerLabel ∧ d.severity = .error
      ∧ ∀ n, d.line = some n → 1 ≤ n := by
  unfold runnerPart at h
  cases hjv : jGet w "jobs" with
  | none =>
    rw [hjv] at h
    simp only [pure, Except.pure] at h
    obtain rfl : _ = l := Except.ok.inj h
    intro d hd
    exact absurd hd (List.not_mem_nil d)
  | some jv =>
    rw [hjv] at h
    dsimp only at h
    by_cases hf : jsFalsy jv = true
    · rw [if_pos hf] at h
      simp only [pure, Except.pure] at h
      obtain rfl : _ = l := Except.ok.inj h
      intro d hd
      exact absurd hd (List.not_mem_nil d)
    · rw [if_neg hf] at h
      simp only [bind, Except.bind] at h
      cases hmm : mapME (runnerCheckJob m) (jsEntries jv) with
      | error u => rw [hmm] at h; exact Except.noConfusion h
      | ok parts =>
        rw [hmm] at h
        simp only [pure, Except.pure] at h
        obtain rfl : _ = l := Except.ok.inj h
        intro d hd
        obtain ⟨part, hpart, hdp⟩ := List.mem_flatten.mp hd
        obtain ⟨x, _, hfx⟩ :=
          (mapME_ok_mem (runnerCheckJob m) (jsEntries jv) parts hmm).1 part hpart
        exact runnerCheckJob_ok_inv m hm x part hfx d hdp

theorem stepsPart_ok_nil (w : JVal) (l : List ValidationError)
    (h : stepsPart w = .ok l) : l = [] := by
  unfold stepsPart at h
  cases hjv : jGet w "jobs" with
  | none =>
    rw [hjv] at h
    simp only [pure, Except.pure] at h
    exact (Except.ok.inj h).symm
  | some jv =>
    rw [hjv] at h
    dsimp only at h
    by_cases hf : jsFalsy jv = true
    · rw [if_pos hf] at h
      simp only [pure, Except.pure] at h
      exact (Except.ok.inj h).symm
    · rw [if_neg hf] at h
      simp only [bind, Except.bind] at h
      cases hmm : mapME stepsLoopJob (jsEntries jv) with
      | error u => rw [hmm] at h; exact Except.noConfusion h
      | ok parts =>
        rw [hmm] at h
        simp only [pure, Except.pure] at h
        obtain rfl : _ = l := Except.ok.inj h
        rw [List.eq_nil_iff_forall_not_mem]
        intro d hd
        obtain ⟨part, hpart, hdp⟩ := List.mem_flatten.mp hd
        obtain ⟨x, _, hfx⟩ :=
          (mapME_ok_mem stepsLoopJob (jsEntries jv) parts hmm).1 part hpart
        rw [stepsLoopJob_ok_nil x part hfx] at hdp
        exact absurd hdp (List.not_mem_nil d)

theorem performAdditionalValidations_ok_inv (w : JVal) (m : LocMap)
    (hm : ∀ q ∈ m, 1 ≤ q.2.line) (l : List ValidationError)
    (h : performAdditionalValidations w m = .ok l) :
    ∀ d ∈ l, (d.type = .runnerLabel ∨ d.type = .unexpectedKey)
      ∧ d.severity = .error ∧ ∀ n, d.line = some n → 1 ≤ n := by
  unfold performAdditionalValidations at h
  simp only [bind, Except.bind] at h
  cases hr : runnerPart w m with
  | error u => rw [hr] at h; exact Except.noConfusion h
  | ok r =>
    rw [hr] at h
    cases hs : stepsPart w with
    | error u => rw [hs] at h; exact Except.noConfusion h
    | ok st =>
      rw [hs] at h
      simp only [pure, Except.pure] at h
      obtain rfl : _ = l := Except.ok.inj h
      have hst : st = [] := stepsPart_ok_nil w st hs
      subst hst
      intro d hd
      rcases List.mem_append.mp hd with h' | h'
      · rcases List.mem_append.mp h' with h'' | h''
        · obtain ⟨ht, h1, h2⟩ := runnerPart_ok_inv w m hm r hr d h''
          exact ⟨Or.inl ht, h1, h2⟩
        · obtain ⟨ht, h1, h2⟩ := triggerKeyErrs_inv w m hm d h''
          exact ⟨Or.inr ht, h1, h2⟩
      · exact absurd h' (List.not_mem_nil d)

/-! ## Pipeline deconstruction and the ordering/severity claims -/

theorem getYamlErrors_ok_obj (doc : String) (v : JVal)
    (hv : ¬(jsFalsy v || !(jsTypeof v == "object")) = true)
    (out : List ValidationError) (h : getYamlErrors doc (.ok v) = .ok out) :
    ∃ conv addl,
      mapME (fun e => convertAjvError e (buildLocationMap doc v))
          (validateWorkflow v) = .ok conv
      ∧ performAdditionalValidations v (buildLocationMap doc v) = .ok addl
      ∧ out = sortByLine (removeDuplicateErrors (conv.filterMap id ++ addl)) := by
  simp only [getYamlErrors] at h
  rw [if_neg hv] at h
  simp only [bind, Except.bind] at h
  cases hconv : mapME (fun e => convertAjvError e (buildLocationMap doc v))
      (validateWorkflow v) with
  | error u => rw [hconv] at h; exact Except.noConfusion h
  | ok conv =>
    rw [hconv] at h
    cases hadd : performAdditionalValidations v (buildLocationMap doc v) with
    | error u => rw [hadd] at h; exact Except.noConfusion h
    | ok addl =>
      rw [hadd] at h
      simp only [pure, Except.pure] at h
      exact ⟨conv, addl, rfl, rfl, (Except.ok.inj h).symm⟩

theorem getYamlErrors_out_inv (doc : String) (pr : ParseResult)
    (out : List ValidationError) (h : getYamlErrors doc pr = .ok out) :
    ∀ d ∈ out, d.severity = .error ∧ ∀ n, d.line = some n → 1 ≤ n := by
  cases pr with
  | fail mk reason msg =>
    cases mk with
    | none =>
      simp only [getYamlErrors] at h
      obtain rfl : _ = out := Except.ok.inj h
      intro d hd
      rcases List.mem_cons.mp hd with rfl | hd'
      · exact ⟨rfl, fun n hn => by exact absurd hn (by simp)⟩
      · exact absurd hd' (List.not_mem_nil d)
    | some mark =>
      simp only [getYamlErrors] at h
      obtain rfl : _ = out := Except.ok.inj h
      intro d hd
      rcases List.mem_cons.mp hd with rfl | hd'
      · exact ⟨rfl, fun n hn => by injection hn with hn'; omega⟩
      · exact absurd hd' (List.not_mem_nil d)
  | ok v =>
    by_cases hv : (jsFalsy v || !(jsTypeof v == "object")) = true
    · simp only [getYamlErrors] at h
      rw [if_pos hv] at h
      obtain rfl : _ = out := Except.ok.inj h
      intro d hd
      rcases List.mem_cons.mp hd with rfl | hd'
      · exact ⟨rfl, fun n hn => by injection hn with hn'; omega⟩
      · exact absurd hd' (List.not_mem_nil d)
    · obtain ⟨conv, addl, hconv, hadd, rfl⟩ := getYamlErrors_ok_obj doc v hv out h
      intro d hd
      have hd1 : d ∈ removeDuplicateErrors (conv.filterMap id ++ addl) :=
        (mem_sortByLine d _).mp hd
      have hd2 : d ∈ conv.filterMap id ++ addl :=
        (removeDuplicateErrorsGo_sublist [] _).mem hd1
      have hm := buildLocationMap_line_pos doc v
      rcases List.mem_append.mp hd2 with h' | h'
      · obtain ⟨o, ho, hod⟩ := List.mem_filterMap.mp h'
        obtain rfl : o = some d := hod
        obtain ⟨e, _, hfe⟩ :=
          (mapME_ok_mem (fun e => convertAjvError e (buildLocationMap doc v))
            (validateWorkflow v) conv hconv).1 (some d) ho
        exact convertAjvError_ok_inv e (buildLocationMap doc v) hm d hfe
      · obtain ⟨_, h1, h2⟩ :=
          performAdditionalValidations_ok_inv v (buildLocationMap doc v) hm addl hadd d h'
        exact ⟨h1, h2⟩

/-- C10: every diagnostic ever returned by `getYamlErrors` has severity
`error` — the only `severity: 'warning'` construction site in the source
is inside `_checkUntrustedExpressions`, whose call is commented out, so
no execution path emits a warning. -/
theorem getYamlErrors_all_severities_error (doc : String) (pr : ParseResult)
    (out : List ValidationError) (h : getYamlErrors doc pr = .ok out) :
    ∀ d ∈ out, d.severity = .error :=
  fun d hd => (getYamlErrors_out_inv doc pr out h d hd).1

/-- Witness for C10 at a concrete syntax failure. -/
theorem getYamlErrors_all_severities_error_witness :
    ({ type := .syntaxError, message := "YAML syntax error: bad", line := some 3,
       column := some 5, severity := .error } : ValidationError).severity
      = .error :=
  getYamlErrors_all_severities_error "x" (.fail (some ⟨2, 4⟩) "bad" "m")
    [{ type := .syntaxError, message := "YAML syntax error: bad", line := some 3,
       column := some 5, severity := .error }] rfl _ (List.mem_cons_self _ _)

/-- C7: the list returned by `getYamlErrors` is sorted ascending by
`(line || 0)`, and since every present line is 1-based, diagnostics with
no line (key 0) sort before all located diagnostics. -/
theorem getYamlErrors_sorted_by_line (doc : String) (pr : ParseResult)
    (out : List ValidationError) (h : getYamlErrors doc pr = .ok out) :
    out.Pairwise (fun a b => lineKey a ≤ lineKey b)
    ∧ out.Pairwise (fun a b => b.line = none → a.line = none) := by
  have hsorted : out.Pairwise (fun a b => lineKey a ≤ lineKey b) := by
    cases pr with
    | fail mk reason msg =>
      cases mk with
      | none =>
        simp only [getYamlErrors] at h
        obtain rfl : _ = out := Except.ok.inj h
        simp
      | some mark =>
        simp only [getYamlErrors] at h
        obtain rfl : _ = out := Except.ok.inj h
        simp
    | ok v =>
      by_cases hv : (jsFalsy v || !(jsTypeof v == "object")) = true
      · simp only [getYamlErrors] at h
        rw [if_pos hv] at h
        obtain rfl : _ = out := Except.ok.inj h
        simp
      · obtain ⟨conv, addl, _, _, rfl⟩ := getYamlErrors_ok_obj doc v hv out h
        exact sorted_sortByLine _
  refine ⟨hsorted, List.Pairwise.imp_of_mem ?_ hsorted⟩
  intro a b ha hb hr hbnone
  have hinv := (getYamlErrors_out_inv doc pr out h a ha).2
  cases han : a.line with
  | none => rfl
  | some n =>
    have h1 : 1 ≤ n := hinv n han
    have h0 : lineKey b = 0 := by simp [lineKey, hbnone]
    have h2 : lineKey a = n := by simp [lineKey, han]
    omega

/-- Witness for C7 on a document producing a located diagnostic. -/
theorem getYamlErrors_sorted_by_line_witness :
    List.Pairwise (fun (a b : ValidationError) => lineKey a ≤ lineKey b)
      [{ type := .structureErr,
         message := "Step 1 in job 'build' must have either 'uses' for actions or 'run' for shell commands. But not both together.",
         line := some 6, column := some 5, path := some "jobs.build.steps.0",
         severity := .error }]
    ∧ List.Pairwise (fun (a b : ValidationError) => b.line = none → a.line = none)
      [{ type := .structureErr,
         message := "Step 1 in job 'build' must have either 'uses' for actions or 'run' for shell commands. But not both together.",
         line := some 6, column := some 5, path := some "jobs.build.steps.0",
         severity := .error }] :=
  getYamlErrors_sorted_by_line docC6b (.ok wfC6b) _ rfl

/-! ## The step-`oneOf` diagnostic: supporting analysis for C6 -/

theorem digitChar_spec (m : Nat) (hm : m < 10) :
    (Char.ofNat (48 + m)).isDigit = true ∧ (Char.ofNat (48 + m)).toNat = 48 + m := by
  interval_cases m <;> exact ⟨by decide, by decide⟩

theorem natDigitsRevAux_digits (fuel : Nat) :
    ∀ n, ∀ c ∈ natDigitsRevAux fuel n, c.isDigit = true := by
  induction fuel with
  | zero => intro n c hc; simp [natDigitsRevAux] at hc
  | succ f ih =>
    intro n c hc
    unfold natDigitsRevAux at hc
    split at hc
    · next h =>
      rcases List.mem_singleton.mp hc with rfl
      exact (digitChar_spec n h).1
    · next h =>
      rcases List.mem_cons.mp hc with rfl | hc'
      · exact (digitChar_spec (n % 10) (Nat.mod_lt n (by omega))).1
      · exact ih (n / 10) c hc'

theorem natToStr_digits (n : Nat) : ∀ c ∈ (natToStr n).data, c.isDigit = true := by
  intro c hc
  have hc' : c ∈ (natDigitsRev n).reverse := hc
  exact natDigitsRevAux_digits (n + 1) n c (List.mem_reverse.mp hc')

theorem isDigit_char_props (c : Char) (h : c.isDigit = true) :
    c ≠ '.' ∧ c ≠ '/' ∧ c ≠ '\'' ∧ c ≠ ' ' ∧ c ≠ '~' ∧ c ≠ '-' := by
  refine ⟨?_, ?_, ?_, ?_, ?_, ?_⟩ <;> rintro rfl <;> exact absurd h (by decide)

theorem parseDigitsAux_foldl (l : List Char) (hd : ∀ c ∈ l, c.isDigit = true) :
    ∀ acc, parseDigitsAux acc l = l.foldl (fun a c => 10 * a + (c.toNat - 48)) acc := by
  induction l with
  | nil => intro acc; rfl
  | cons c cs ih =>
    intro acc
    unfold parseDigitsAux
    rw [if_pos (hd c (List.mem_cons_self c cs))]
    rw [ih (fun x hx => hd x (List.mem_cons_of_mem c hx))]
    rfl

theorem natDigitsRevAux_val (fuel : Nat) :
    ∀ n acc, n < fuel →
      ((natDigitsRevAux fuel n).reverse).foldl (fun a c => 10 * a + (c.toNat - 48)) acc
        = acc * 10 ^ (natDigitsRevAux fuel n).length + n := by
  induction fuel with
  | zero => intro n acc h; omega
  | succ f ih =>
    intro n acc h
    unfold natDigitsRevAux
    split
    · next h10 =>
      have ht := (digitChar_spec n h10).2
      simp [List.foldl, ht]
      omega
    · next h10 =>
      rw [List.reverse_cons, List.foldl_append]
      have hrec : n / 10 < f := by
        have h1 : n / 10 < n := Nat.div_lt_self (by omega) (by omega)
        omega
      rw [ih (n / 10) acc hrec]
      have ht := (digitChar_spec (n % 10) (Nat.mod_lt n (by omega))).2
      simp only [List.foldl, List.length_cons, ht]
      have hmod := Nat.div_add_mod n 10
      rw [Nat.pow_succ]
      ring_nf
      omega

theorem natToStr_val (n : Nat) :
    (natToStr n).data.foldl (fun a c => 10 * a + (c.toNat - 48)) 0 = n := by
  have h := natDigitsRevAux_val (n + 1) n 0 (Nat.lt_succ_self n)
  show ((natDigitsRevAux (n + 1) n).reverse).foldl (fun a c => 10 * a + (c.toNat - 48)) 0 = n
  rw [h]
  simp

theorem natToStr_ne_nil (n : Nat) : (natToStr n).data ≠ [] := by
  show (natDigitsRev n).reverse ≠ []
  unfold natDigitsRev natDigitsRevAux
  split <;> simp

theorem parseLeadingInt_natToStr (n : Nat) :
    parseLeadingInt (natToStr n) = some (n : Int) := by
  unfold parseLeadingInt
  cases hdata : (natToStr n).data with
  | nil => exact absurd hdata (natToStr_ne_nil n)
  | cons c cs =>
    have hc : c.isDigit = true :=
      natToStr_digits n c (hdata ▸ List.mem_cons_self c cs)
    have hcs : ∀ x ∈ cs, x.isDigit = true := fun x hx =>
      natToStr_digits n x (hdata ▸ List.mem_cons_of_mem c hx)
    have hcne : c ≠ '-' := (isDigit_char_props c hc).2.2.2.2.2
    have hval : parseDigitsAux 0 (c :: cs) = n := by
      rw [parseDigitsAux_foldl (c :: cs) (by
        intro x hx
        rcases List.mem_cons.mp hx with rfl | hx'
        · exact hc
        · exact hcs x hx') 0]
      rw [← hdata]
      exact natToStr_val n
    cases cs with
    | nil =>
      simp only [hc, if_pos]
      rw [hval]
    | cons c2 cs2 =>
      split
      · next c3 cs3 heq =>
        rw [List.cons.injEq] at heq
        exact absurd heq.1 hcne
      · next c3 cs3 heq =>
        rw [List.cons.injEq] at heq
        obtain ⟨rfl, h2⟩ := heq
        subst h2
        rw [if_pos hc, hval]
      · next heq => exact absurd heq (by simp)

theorem renderIdxPlus1_natToStr (i : Nat) :
    renderIdxPlus1 (some (natToStr i)) = natToStr (i + 1) := by
  simp only [renderIdxPlus1, parseLeadingInt_natToStr]
  show intToStr ((i : Int) + 1) = natToStr (i + 1)
  unfold intToStr
  rw [if_neg (by omega)]
  congr 1

theorem splitCharList_ne_nil (c : Char) (l : List Char) : splitCharList c l ≠ [] := by
  cases l with
  | nil => simp [splitCharList]
  | cons x xs =>
    rw [splitCharList]
    cases splitCharList c xs with
    | nil => simp
    | cons h t =>
      split
      · simp
      · split <;> simp

theorem splitCharList_no_delim (c : Char) (l : List Char) (h : ∀ x ∈ l, x ≠ c) :
    splitCharList c l = [l] := by
  induction l with
  | nil => rfl
  | cons x xs ih =>
    have hx : x ≠ c := h x (List.mem_cons_self x xs)
    unfold splitCharList
    rw [ih (fun y hy => h y (List.mem_cons_of_mem x hy))]
    simp [hx]

theorem splitCharList_cons_delim (c : Char) (b : List Char) :
    splitCharList c (c :: b) = [] :: splitCharList c b := by
  cases hs : splitCharList c b with
  | nil => exact absurd hs (splitCharList_ne_nil c b)
  | cons h t =>
    rw [splitCharList, hs]
    simp

theorem splitCharList_append_delim (c : Char) (a : List Char) :
    ∀ b, (∀ x ∈ a, x ≠ c) →
      splitCharList c (a ++ c :: b) = a :: splitCharList c b := by
  induction a with
  | nil =>
    intro b _
    exact splitCharList_cons_delim c b
  | cons x xs ih =>
    intro b h
    have hx : x ≠ c := h x (List.mem_cons_self x xs)
    have hrec := ih b (fun y hy => h y (List.mem_cons_of_mem x hy))
    show splitCharList c (x :: (xs ++ c :: b)) = (x :: xs) :: splitCharList c b
    rw [splitCharList, hrec]
    simp [hx]

theorem jsSplit_jobs_steps (j dgs : String)
    (hj : ∀ x ∈ j.data, x ≠ '.') (hd : ∀ x ∈ dgs.data, x ≠ '.') :
    jsSplit '.' ("jobs." ++ j ++ ".steps." ++ dgs) = ["jobs", j, "steps", dgs] := by
  unfold jsSplit
  have hdata : ("jobs." ++ j ++ ".steps." ++ dgs).data
      = ['j','o','b','s'] ++ '.' :: (j.data ++ '.' :: (['s','t','e','p','s'] ++ '.' :: dgs.data)) := by
    simp [String.data_append]
  rw [hdata, splitCharList_append_delim '.' ['j','o','b','s'] _ (by decide),
      splitCharList_append_delim '.' j.data _ hj,
      splitCharList_append_delim '.' ['s','t','e','p','s'] _ (by decide),
      splitCharList_no_delim '.' dgs.data hd]
  rfl

theorem flatMap_singleton_id {α : Type} (f : α → List α) (l : List α)
    (h : ∀ c ∈ l, f c = [c]) : l.flatMap f = l := by
  induction l with
  | nil => rfl
  | cons x xs ih =>
    rw [List.flatMap_cons, h x (List.mem_cons_self x xs),
        ih (fun y hy => h y (List.mem_cons_of_mem x hy))]
    rfl

theorem escPtrSeg_id (s : String) (h : ∀ c ∈ s.data, c ≠ '~' ∧ c ≠ '/') :
    escPtrSeg s = s := by
  unfold escPtrSeg
  have hfm : s.data.flatMap (fun c =>
      if c = '~' then ['~', '0'] else if c = '/' then ['~', '1'] else [c]) = s.data := by
    refine flatMap_singleton_id _ _ (fun c hc => ?_)
    rw [if_neg (h c hc).1, if_neg (h c hc).2]
  exact congrArg String.mk hfm

theorem dottedPath_jobs_steps (j dgs : String)
    (hj : ∀ x ∈ j.data, x ≠ '/') (hd : ∀ x ∈ dgs.data, x ≠ '/') :
    dottedPath ("/jobs/" ++ j ++ "/steps/" ++ dgs) = "jobs." ++ j ++ ".steps." ++ dgs := by
  unfold dottedPath
  have hdata : ("/jobs/" ++ j ++ "/steps/" ++ dgs).data
      = '/' :: (['j','o','b','s','/'] ++ (j.data ++ ('/' :: (['s','t','e','p','s','/'] ++ dgs.data)))) := by
    simp [String.data_append]
  rw [hdata]
  simp only [List.head?_cons, List.tail_cons, if_pos]
  have hmap : (['j','o','b','s','/'] ++ (j.data ++ ('/' :: (['s','t','e','p','s','/'] ++ dgs.data)))).map
      (fun c => if c = '/' then '.' else c)
      = ['j','o','b','s','.'] ++ (j.data ++ ('.' :: (['s','t','e','p','s','.'] ++ dgs.data))) := by
    have h1 : j.data.map (fun c => if c = '/' then '.' else c) = j.data := by
      refine List.map_congr_left (fun c hc => if_neg (hj c hc)) |>.trans (List.map_id j.data)
    have h2 : dgs.data.map (fun c => if c = '/' then '.' else c) = dgs.data := by
      refine List.map_congr_left (fun c hc => if_neg (hd c hc)) |>.trans (List.map_id dgs.data)
    simp [h1, h2]
  rw [hmap]
  have hrhs : ("jobs." ++ j ++ ".steps." ++ dgs).data
      = ['j','o','b','s','.'] ++ (j.data ++ ('.' :: (['s','t','e','p','s','.'] ++ dgs.data))) := by
    simp [String.data_append]
  rw [← hrhs]

theorem jobNameMatch_chars (s : String) (h : jobNameMatch s = true) :
    ∀ c ∈ s.data, (c.isAlpha || c.isDigit || c = '_' || c = '-') = true := by
  unfold jobNameMatch at h
  intro x hx
  cases hdata : s.data with
  | nil => rw [hdata] at hx; exact absurd hx (List.not_mem_nil x)
  | cons c cs =>
    rw [hdata] at h hx
    simp only [Bool.and_eq_true, Bool.or_eq_true, List.all_eq_true] at h
    rcases List.mem_cons.mp hx with rfl | hx'
    · rcases h.1 with h1 | h1
      · simp [h1]
      · simp [h1]
    · have := h.2 x hx'
      simp only [Bool.or_eq_true, decide_eq_true_eq] at this
      rcases this with ((h1 | h1) | h1) | h1 <;> simp [h1]

theorem jobChar_props (c : Char)
    (h : (c.isAlpha || c.isDigit || c = '_' || c = '-') = true) :
    c ≠ '\'' ∧ c ≠ '.' ∧ c ≠ '/' ∧ c ≠ '~' ∧ c ≠ ' ' := by
  refine ⟨?_, ?_, ?_, ?_, ?_⟩ <;> rintro rfl <;> exact absurd h (by decide)

theorem indexOfAux_isSome_of_infix (pat : List Char) :
    ∀ (l : List Char) (i : Nat), pat <:+: l → (indexOfAux pat l i).isSome = true := by
  intro l
  induction l with
  | nil =>
    intro i h
    have hp : pat = [] := by simpa using h
    subst hp
    simp [indexOfAux]
  | cons x xs ih =>
    intro i h
    unfold indexOfAux
    split
    · simp
    · next hnp =>
      rcases List.infix_cons_iff.mp h with hp | hin
      · exact absurd (List.isPrefixOf_iff_prefix.mpr hp) (by simpa using hnp)
      · exact ih (i + 1) hin

theorem strIncludes_of_infix (s pat : String) (h : pat.data <:+: s.data) :
    strIncludes s pat = true := by
  unfold strIncludes strIndexOf
  exact indexOfAux_isSome_of_infix pat.data s.data 0 h

theorem strIncludes_oneOf_suffix (sp : String) :
    strIncludes (sp ++ "/oneOf") "oneOf" = true := by
  refine strIncludes_of_infix _ _ ⟨sp.data ++ ['/'], [], ?_⟩
  simp [String.data_append, show ("/oneOf").data = '/' :: ("oneOf").data from rfl]

theorem strIncludes_steps_mid (j dgs : String) :
    strIncludes ("jobs." ++ j ++ ".steps." ++ dgs) "steps" = true := by
  refine strIncludes_of_infix _ _ ⟨("jobs.").data ++ j.data ++ ['.'], '.' :: dgs.data, ?_⟩
  simp [String.data_append,
    show (".steps.").data = '.' :: ("steps").data ++ ['.'] from rfl]

theorem dotted_ne_on (j dgs : String) :
    (("jobs." ++ j ++ ".steps." ++ dgs) == "on") = false := by
  refine beq_eq_false_iff_ne.mpr (fun hcontra => ?_)
  have h := congrArg String.data hcontra
  have h1 : ("jobs." ++ j ++ ".steps." ++ dgs).data
      = 'j' :: ('o' :: 'b' :: 's' :: '.' :: (j.data
        ++ ('.' :: 's' :: 't' :: 'e' :: 'p' :: 's' :: '.' :: dgs.data))) := by
    simp [String.data_append]
  rw [h1, show ("on").data = ['o','n'] from rfl] at h
  simp at h

theorem convertAjvErrorCore_oneOf_steps (E : AjvError) (loc : YamlLocation)
    (path jobName : String) (stepIdx : Option String)
    (hkw : E.keyword = "oneOf")
    (hpon : (path == "on") = false)
    (hsteps : strIncludes path "steps" = true)
    (hsp : strIncludes E.schemaPath "oneOf" = true) :
    convertAjvErrorCore E loc path jobName stepIdx
      = .ok (some { type := .structureErr,
                    message := stepBothMsg (renderIdxPlus1 stepIdx) jobName,
                    line := some loc.line, column := some loc.column,
                    path := some path, severity := .error }) := by
  have c1 : (E.instancePath == "" && E.keyword == "required") = false := by
    rw [hkw]; simp
  have c2 : (E.instancePath == "" && E.keyword == "anyOf"
      && strIncludes E.schemaPath "anyOf") = false := by
    rw [hkw]; simp
  have c3 : (path == "on" && E.keyword == "oneOf") = false := by
    rw [hpon]; simp
  have c4 : (strIncludes path "jobs." && !strIncludes path "steps"
      && E.keyword == "required" && E.missingProperty == some "runs-on") = false := by
    rw [hkw]; simp
  have c5 : (strIncludes path "jobs." && !strIncludes path "steps"
      && E.keyword == "required" && E.missingProperty == some "steps") = false := by
    rw [hkw]; simp
  have c6 : (strIncludes path "jobs." && !strIncludes path "steps"
      && E.keyword == "minItems" && strIncludes path "steps") = false := by
    rw [hsteps]; simp
  have c7 : (strIncludes path "steps" && E.keyword == "oneOf"
      && strIncludes E.schemaPath "oneOf") = true := by
    rw [hkw, hsteps, hsp]; simp
  delta convertAjvErrorCore
  rw [if_neg (by simp [c1]), if_neg (by simp [c2]), if_neg (by simp [c3]),
      if_neg (by simp [c4]), if_neg (by simp [c5]), if_neg (by simp [c6]),
      if_pos c7]

theorem convertAjvError_step_oneOf (lm : LocMap) (j : String) (i : Nat) (sp : String)
    (v : JVal) (hname : jobNameMatch j = true) :
    ∃ d : ValidationError,
      convertAjvError (oneOfErr ("/jobs/" ++ escPtrSeg j ++ "/steps/" ++ natToStr i) sp v) lm
        = .ok (some d)
      ∧ d.type = .structureErr ∧ d.severity = .error
      ∧ d.message = stepBothMsg (natToStr (i + 1)) j := by
  have hchars := jobNameMatch_chars j hname
  have hesc : escPtrSeg j = j :=
    escPtrSeg_id j (fun c hc =>
      ⟨(jobChar_props c (hchars c hc)).2.2.2.1, (jobChar_props c (hchars c hc)).2.2.1⟩)
  have hdot : dottedPath ("/jobs/" ++ escPtrSeg j ++ "/steps/" ++ natToStr i)
      = "jobs." ++ j ++ ".steps." ++ natToStr i := by
    rw [hesc]
    exact dottedPath_jobs_steps j (natToStr i)
      (fun c hc => (jobChar_props c (hchars c hc)).2.2.1)
      (fun c hc => (isDigit_char_props c (natToStr_digits i c hc)).2.1)
  have hsplit : jsSplit '.' ("jobs." ++ j ++ ".steps." ++ natToStr i)
      = ["jobs", j, "steps", natToStr i] :=
    jsSplit_jobs_steps j (natToStr i)
      (fun c hc => (jobChar_props c (hchars c hc)).2.1)
      (fun c hc => (isDigit_char_props c (natToStr_digits i c hc)).1)
  unfold convertAjvError
  have hip : (oneOfErr ("/jobs/" ++ escPtrSeg j ++ "/steps/" ++ natToStr i) sp v).instancePath
      = "/jobs/" ++ escPtrSeg j ++ "/steps/" ++ natToStr i := rfl
  rw [hip, hdot, hsplit]
  refine ⟨_, convertAjvErrorCore_oneOf_steps _ _ _ _ _ rfl ?_ ?_ ?_, rfl, rfl, ?_⟩
  · exact dotted_ne_on j (natToStr i)
  · exact strIncludes_steps_mid j (natToStr i)
  · exact strIncludes_oneOf_suffix sp
  · show stepBothMsg (renderIdxPlus1 (["jobs", j, "steps", natToStr i].get? 3))
        (strOpt (["jobs", j, "steps", natToStr i].get? 1)) = stepBothMsg (natToStr (i + 1)) j
    rw [show (["jobs", j, "steps", natToStr i].get? 3) = some (natToStr i) from rfl,
        show (["jobs", j, "steps", natToStr i].get? 1) = some j from rfl,
        renderIdxPlus1_natToStr]
    rfl

theorem vStep_both_oneOfErr_mem (ip sp : String) (sf : List (String × JVal))
    (hu : (sf.lookup "uses").isSome = true) (hr : (sf.lookup "run").isSome = true) :
    oneOfErr ip sp (.obj sf) ∈ vStep ip sp (.obj sf) := by
  unfold vStep
  refine List.mem_append_right _ ?_
  unfold oneOfAt
  rw [if_neg ?hfail]
  case hfail =>
    have hb1 : reqErrs ip (sp ++ "/oneOf/0") (.obj sf) ["uses"]
        ++ notReqCheck ip (sp ++ "/oneOf/0") "run" (.obj sf)
        = [notErr ip (sp ++ "/oneOf/0") (.obj sf)] := by
      unfold reqErrs notReqCheck
      simp [hu, hr]
    have hb2 : reqErrs ip (sp ++ "/oneOf/1") (.obj sf) ["run"]
        ++ notReqCheck ip (sp ++ "/oneOf/1") "uses" (.obj sf)
        = [notErr ip (sp ++ "/oneOf/1") (.obj sf)] := by
      unfold reqErrs notReqCheck
      simp [hu, hr]
    rw [hb1, hb2]
    simp
  exact List.mem_append_right _ (List.mem_singleton.mpr rfl)

theorem mem_vStepsArr_of_step (ip sp : String) (steps : List JVal) (i : Nat) (st : JVal)
    (hst : steps.get? i = some st) (e : AjvError)
    (he : e ∈ vStep (ip ++ "/" ++ natToStr i) (sp ++ "/items") st) :
    e ∈ vStepsArr ip sp (.arr steps) := by
  unfold vStepsArr
  refine List.mem_append_left _ (List.mem_append_right _ ?_)
  refine List.mem_flatMap.mpr ⟨(i, st), List.mk_mem_enum_iff_getElem?.mpr ?_, he⟩
  rw [← List.get?_eq_getElem?]
  exact hst

theorem mem_vJob_of_steps (ip sp : String) (jb : List (String × JVal)) (steps : JVal)
    (hsteps : jb.lookup "steps" = some steps) (e : AjvError)
    (he : e ∈ vStepsArr (ip ++ "/steps") (sp ++ "/properties/steps") steps) :
    e ∈ vJob ip sp (.obj jb) := by
  unfold vJob
  refine List.mem_append_right _ ?_
  unfold propErrs
  rw [hsteps]
  exact he

theorem mem_vJobs_of_job (ip sp : String) (jf : List (String × JVal)) (j : String)
    (jv : JVal) (hmem : (j, jv) ∈ jf) (hname : jobNameMatch j = true) (e : AjvError)
    (he : e ∈ vJob (ip ++ "/" ++ escPtrSeg j) (sp ++ "/patternProperties/job") jv) :
    e ∈ vJobs ip sp (.obj jf) := by
  unfold vJobs
  refine List.mem_append_right _ ?_
  refine List.mem_flatMap.mpr ⟨(j, jv), hmem, ?_⟩
  show e ∈ if jobNameMatch j then
      vJob (ip ++ "/" ++ escPtrSeg j) (sp ++ "/patternProperties/job") jv else []
  rw [if_pos hname]
  exact he

theorem mem_validateWorkflow_of_jobs (f : List (String × JVal)) (jobs : JVal)
    (hjobs : f.lookup "jobs" = some jobs) (e : AjvError)
    (he : e ∈ vJobs "/jobs" "#/properties/jobs" jobs) :
    e ∈ validateWorkflow (.obj f) := by
  unfold validateWorkflow
  refine List.mem_append_right _ ?_
  unfold propErrs
  rw [hjobs]
  exact he


theorem oneOfQF_nil : oneOfQF [] := fun e he => absurd he (List.not_mem_nil e)

theorem oneOfQF_append {a b : List AjvError} (ha : oneOfQF a) (hb : oneOfQF b) :
    oneOfQF (a ++ b) := by
  intro e he
  rcases List.mem_append.mp he with h | h
  exacts [ha e h, hb e h]

theorem oneOfQF_singleton_not {e : AjvError} (hk : e.keyword ≠ "oneOf") :
    oneOfQF [e] := by
  intro x hx hkx
  rcases List.mem_singleton.mp hx with rfl
  exact absurd hkx hk

theorem oneOfQF_flatMap {α : Type} {g : α → List AjvError} {l : List α}
    (h : ∀ x ∈ l, oneOfQF (g x)) : oneOfQF (l.flatMap g) := by
  intro e he
  obtain ⟨x, hx, hex⟩ := List.mem_flatMap.mp he
  exact h x hx e hex

theorem oneOfQF_ite {c : Prop} [Decidable c] {a b : List AjvError}
    (ha : oneOfQF a) (hb : oneOfQF b) : oneOfQF (if c then a else b) := by
  split <;> assumption

theorem oneOfQF_propErrs {fields : List (String × JVal)} {k : String}
    {g : JVal → List AjvError} (h : ∀ v, oneOfQF (g v)) :
    oneOfQF (propErrs fields k g) := by
  unfold propErrs
  split
  · exact h _
  · exact oneOfQF_nil

theorem oneOfQF_reqErrs (ip sp : String) (v : JVal) (ks : List String) :
    oneOfQF (reqErrs ip sp v ks) := by
  intro e he hk
  unfold reqErrs at he
  split at he
  · obtain ⟨k, _, hke⟩ := List.mem_filterMap.mp he
    split at hke
    · exact absurd hke (by simp)
    · obtain rfl : _ = e := Option.some.inj hke
      exact absurd hk (by simp [reqErr])
  · exact absurd he (List.not_mem_nil e)

theorem qfreeStr_append {a b : String} (ha : qfreeStr a) (hb : qfreeStr b) :
    qfreeStr (a ++ b) := by
  intro c hc
  rw [String.data_append] at hc
  rcases List.mem_append.mp hc with h | h
  exacts [ha c h, hb c h]

theorem qfreeStr_natToStr (n : Nat) : qfreeStr (natToStr n) :=
  fun c hc => (isDigit_char_props c (natToStr_digits n c hc)).2.2.1

theorem oneOfQF_oneOfAt (ip sp : String) (v : JVal) (branches : List (List AjvError))
    (hip : qfreeStr ip) (hb : ∀ x ∈ branches, oneOfQF x) :
    oneOfQF (oneOfAt ip sp v branches) := by
  unfold oneOfAt
  split
  · exact oneOfQF_nil
  · refine oneOfQF_append (oneOfQF_flatMap hb) ?_
    intro e he _
    rcases List.mem_singleton.mp he with rfl
    exact hip

theorem oneOfQF_vString (ip sp : String) (v : JVal) : oneOfQF (vString ip sp v) := by
  unfold vString
  split
  · exact oneOfQF_nil
  · exact oneOfQF_singleton_not (by simp [typeErr])

theorem oneOfQF_vStringMin1 (ip sp : String) (v : JVal) : oneOfQF (vStringMin1 ip sp v) := by
  unfold vStringMin1
  split
  · exact oneOfQF_ite (oneOfQF_singleton_not (by simp [minLenErr])) oneOfQF_nil
  · exact oneOfQF_singleton_not (by simp [typeErr])

theorem oneOfQF_vBoolS (ip sp : String) (v : JVal) : oneOfQF (vBoolS ip sp v) := by
  unfold vBoolS
  split
  · exact oneOfQF_nil
  · exact oneOfQF_singleton_not (by simp [typeErr])

theorem oneOfQF_vNumberS (ip sp : String) (v : JVal) : oneOfQF (vNumberS ip sp v) := by
  unfold vNumberS
  split
  · exact oneOfQF_nil
  · exact oneOfQF_singleton_not (by simp [typeErr])

theorem oneOfQF_vNullS (ip sp : String) (v : JVal) : oneOfQF (vNullS ip sp v) := by
  unfold vNullS
  split
  · exact oneOfQF_nil
  · exact oneOfQF_singleton_not (by simp [typeErr])

theorem oneOfQF_vStrEnum (ip sp : String) (allowed : List String) (v : JVal) :
    oneOfQF (vStrEnum ip sp allowed v) := by
  unfold vStrEnum
  exact oneOfQF_append (oneOfQF_vString ip _ v)
    (oneOfQF_ite oneOfQF_nil (oneOfQF_singleton_not (by simp [enumErr])))

theorem oneOfQF_vArrOf (ip sp : String) (minI : Nat)
    (item : String → String → JVal → List AjvError)
    (hitem : ∀ a b x, oneOfQF (item a b x)) (v : JVal) :
    oneOfQF (vArrOf ip sp minI item v) := by
  unfold vArrOf
  split
  · exact oneOfQF_append
      (oneOfQF_ite (oneOfQF_singleton_not (by simp [minItemsErr])) oneOfQF_nil)
      (oneOfQF_flatMap (fun p _ => hitem _ _ _))
  · exact oneOfQF_singleton_not (by simp [typeErr])

theorem oneOfQF_vPaths (ip sp : String) (v : JVal) : oneOfQF (vPaths ip sp v) :=
  oneOfQF_vArrOf ip sp 0 vString oneOfQF_vString v

theorem oneOfQF_vStrOrArrStr (ip sp : String) (v : JVal) (hip : qfreeStr ip) :
    oneOfQF (vStrOrArrStr ip sp v) := by
  unfold vStrOrArrStr
  refine oneOfQF_oneOfAt ip _ v _ hip ?_
  intro x hx
  rcases List.mem_cons.mp hx with rfl | hx'
  · exact oneOfQF_vString _ _ _
  rcases List.mem_singleton.mp hx' with rfl
  exact oneOfQF_vArrOf _ _ 0 vString oneOfQF_vString v

theorem oneOfQF_vStrOrArrStrMin1 (ip sp : String) (v : JVal) (hip : qfreeStr ip) :
    oneOfQF (vStrOrArrStrMin1 ip sp v) := by
  unfold vStrOrArrStrMin1
  refine oneOfQF_oneOfAt ip _ v _ hip ?_
  intro x hx
  rcases List.mem_cons.mp hx with rfl | hx'
  · exact oneOfQF_vStringMin1 _ _ _
  rcases List.mem_singleton.mp hx' with rfl
  exact oneOfQF_vArrOf _ _ 1 vStringMin1 oneOfQF_vStringMin1 v

theorem oneOfQF_vPushObj (ip sp : String) (v : JVal) (hip : qfreeStr ip) :
    oneOfQF (vPushObj ip sp v) := by
  unfold vPushObj
  split
  · refine oneOfQF_append (oneOfQF_append (oneOfQF_append (oneOfQF_append
      (oneOfQF_propErrs (fun x => oneOfQF_vStrOrArrStrMin1 _ _ x
        (qfreeStr_append hip (by decide))))
      (oneOfQF_propErrs (fun x => oneOfQF_vStrOrArrStrMin1 _ _ x
        (qfreeStr_append hip (by decide)))))
      (oneOfQF_propErrs (fun x => oneOfQF_vPaths _ _ x)))
      (oneOfQF_propErrs (fun x => oneOfQF_vPaths _ _ x)))
      (oneOfQF_propErrs (fun x => oneOfQF_vStrOrArrStr _ _ x
        (qfreeStr_append hip (by decide))))
  · exact oneOfQF_singleton_not (by simp [typeErr])

theorem oneOfQF_vOnPush (ip sp : String) (v : JVal) (hip : qfreeStr ip) :
    oneOfQF (vOnPush ip sp v) := by
  unfold vOnPush
  refine oneOfQF_oneOfAt ip _ v _ hip ?_
  intro x hx
  rcases List.mem_cons.mp hx with rfl | hx'
  · exact oneOfQF_vNullS _ _ _
  rcases List.mem_singleton.mp hx' with rfl
  exact oneOfQF_vPushObj ip _ v hip

theorem oneOfQF_vPullObj (ip sp : String) (v : JVal) (hip : qfreeStr ip) :
    oneOfQF (vPullObj ip sp v) := by
  unfold vPullObj
  split
  · refine oneOfQF_append (oneOfQF_append (oneOfQF_append (oneOfQF_append
      (oneOfQF_propErrs (fun x => oneOfQF_vStrOrArrStrMin1 _ _ x
        (qfreeStr_append hip (by decide))))
      (oneOfQF_propErrs (fun x => oneOfQF_vStrOrArrStrMin1 _ _ x
        (qfreeStr_append hip (by decide)))))
      (oneOfQF_propErrs (fun x => oneOfQF_vPaths _ _ x)))
      (oneOfQF_propErrs (fun x => oneOfQF_vPaths _ _ x)))
      (oneOfQF_propErrs (fun x => oneOfQF_vArrOf _ _ 0 _
        (fun a b y => oneOfQF_vStrEnum a b prTypeValues y) x))
  · exact oneOfQF_singleton_not (by simp [typeErr])

theorem oneOfQF_vOnPull (ip sp : String) (v : JVal) (hip : qfreeStr ip) :
    oneOfQF (vOnPull ip sp v) := by
  unfold vOnPull
  refine oneOfQF_oneOfAt ip _ v _ hip ?_
  intro x hx
  rcases List.mem_cons.mp hx with rfl | hx'
  · exact oneOfQF_vNullS _ _ _
  rcases List.mem_singleton.mp hx' with rfl
  exact oneOfQF_vPullObj ip _ v hip

theorem oneOfQF_vDispatchInput (ip sp : String) (v : JVal) :
    oneOfQF (vDispatchInput ip sp v) := by
  unfold vDispatchInput
  split
  · exact oneOfQF_append (oneOfQF_append (oneOfQF_append
      (oneOfQF_propErrs (fun x => oneOfQF_vString _ _ x))
      (oneOfQF_propErrs (fun x => oneOfQF_vBoolS _ _ x)))
      (oneOfQF_propErrs (fun x => oneOfQF_vString _ _ x)))
      (oneOfQF_propErrs (fun x => oneOfQF_vStrEnum _ _ _ x))
  · exact oneOfQF_singleton_not (by simp [typeErr])

theorem oneOfQF_vDispatchInputs (ip sp : String) (v : JVal) :
    oneOfQF (vDispatchInputs ip sp v) := by
  unfold vDispatchInputs
  split
  · exact oneOfQF_flatMap (fun p _ => oneOfQF_vDispatchInput _ _ _)
  · exact oneOfQF_singleton_not (by simp [typeErr])

theorem oneOfQF_vDispatchObj (ip sp : String) (v : JVal) :
    oneOfQF (vDispatchObj ip sp v) := by
  unfold vDispatchObj
  split
  · exact oneOfQF_propErrs (fun x => oneOfQF_vDispatchInputs _ _ x)
  · exact oneOfQF_singleton_not (by simp [typeErr])

theorem oneOfQF_vOnDispatch (ip sp : String) (v : JVal) (hip : qfreeStr ip) :
    oneOfQF (vOnDispatch ip sp v) := by
  unfold vOnDispatch
  refine oneOfQF_oneOfAt ip _ v _ hip ?_
  intro x hx
  rcases List.mem_cons.mp hx with rfl | hx'
  · exact oneOfQF_vNullS _ _ _
  rcases List.mem_singleton.mp hx' with rfl
  exact oneOfQF_vDispatchObj ip _ v

theorem oneOfQF_vScheduleItem (ip sp : String) (v : JVal) :
    oneOfQF (vScheduleItem ip sp v) := by
  unfold vScheduleItem
  split
  · exact oneOfQF_append (oneOfQF_reqErrs _ _ _ _)
      (oneOfQF_propErrs (fun x => oneOfQF_vString _ _ x))
  · exact oneOfQF_singleton_not (by simp [typeErr])

theorem oneOfQF_vOnSchedule (ip sp : String) (v : JVal) :
    oneOfQF (vOnSchedule ip sp v) :=
  oneOfQF_vArrOf ip sp 0 vScheduleItem oneOfQF_vScheduleItem v

theorem oneOfQF_vOnObj (ip sp : String) (v : JVal) (hip : qfreeStr ip) :
    oneOfQF (vOnObj ip sp v) := by
  unfold vOnObj
  split
  · exact oneOfQF_append (oneOfQF_append (oneOfQF_append (oneOfQF_append
      (oneOfQF_ite (oneOfQF_singleton_not (by simp [minPropsErr])) oneOfQF_nil)
      (oneOfQF_propErrs (fun x => oneOfQF_vOnPush _ _ x
        (qfreeStr_append hip (by decide)))))
      (oneOfQF_propErrs (fun x => oneOfQF_vOnPull _ _ x
        (qfreeStr_append hip (by decide)))))
      (oneOfQF_propErrs (fun x => oneOfQF_vOnDispatch _ _ x
        (qfreeStr_append hip (by decide)))))
      (oneOfQF_propErrs (fun x => oneOfQF_vOnSchedule _ _ x))
  · exact oneOfQF_singleton_not (by simp [typeErr])

theorem oneOfQF_vOn (ip sp : String) (v : JVal) (hip : qfreeStr ip) :
    oneOfQF (vOn ip sp v) := by
  unfold vOn
  refine oneOfQF_oneOfAt ip _ v _ hip ?_
  intro x hx
  rcases List.mem_cons.mp hx with rfl | hx'
  · exact oneOfQF_vStrEnum _ _ _ _
  rcases List.mem_cons.mp hx' with rfl | hx''
  · exact oneOfQF_vArrOf _ _ 1 vString oneOfQF_vString v
  rcases List.mem_singleton.mp hx'' with rfl
  exact oneOfQF_vOnObj ip _ v hip

theorem oneOfQF_vStrMap (ip sp : String) (v : JVal) : oneOfQF (vStrMap ip sp v) := by
  unfold vStrMap
  split
  · exact oneOfQF_flatMap (fun p _ => oneOfQF_vString _ _ _)
  · exact oneOfQF_singleton_not (by simp [typeErr])

theorem oneOfQF_vAnyObj (ip sp : String) (v : JVal) : oneOfQF (vAnyObj ip sp v) := by
  unfold vAnyObj
  split
  · exact oneOfQF_nil
  · exact oneOfQF_singleton_not (by simp [typeErr])

theorem oneOfQF_vConcurrencyObj (ip sp : String) (v : JVal) :
    oneOfQF (vConcurrencyObj ip sp v) := by
  unfold vConcurrencyObj
  split
  · exact oneOfQF_append (oneOfQF_propErrs (fun x => oneOfQF_vString _ _ x))
      (oneOfQF_propErrs (fun x => oneOfQF_vBoolS _ _ x))
  · exact oneOfQF_singleton_not (by simp [typeErr])

theorem oneOfQF_vConcurrency (ip sp : String) (v : JVal) (hip : qfreeStr ip) :
    oneOfQF (vConcurrency ip sp v) := by
  unfold vConcurrency
  refine oneOfQF_oneOfAt ip _ v _ hip ?_
  intro x hx
  rcases List.mem_cons.mp hx with rfl | hx'
  · exact oneOfQF_vString _ _ _
  rcases List.mem_singleton.mp hx' with rfl
  exact oneOfQF_vConcurrencyObj ip _ v

theorem oneOfQF_vEnvironmentObj (ip sp : String) (v : JVal) :
    oneOfQF (vEnvironmentObj ip sp v) := by
  unfold vEnvironmentObj
  split
  · exact oneOfQF_append (oneOfQF_propErrs (fun x => oneOfQF_vString _ _ x))
      (oneOfQF_propErrs (fun x => oneOfQF_vString _ _ x))
  · exact oneOfQF_singleton_not (by simp [typeErr])

theorem oneOfQF_vEnvironment (ip sp : String) (v : JVal) (hip : qfreeStr ip) :
    oneOfQF (vEnvironment ip sp v) := by
  unfold vEnvironment
  refine oneOfQF_oneOfAt ip _ v _ hip ?_
  intro x hx
  rcases List.mem_cons.mp hx with rfl | hx'
  · exact oneOfQF_vString _ _ _
  rcases List.mem_singleton.mp hx' with rfl
  exact oneOfQF_vEnvironmentObj ip _ v

theorem oneOfQF_vStrategy (ip sp : String) (v : JVal) : oneOfQF (vStrategy ip sp v) := by
  unfold vStrategy
  split
  · exact oneOfQF_append (oneOfQF_append
      (oneOfQF_propErrs (fun x => oneOfQF_vAnyObj _ _ x))
      (oneOfQF_propErrs (fun x => oneOfQF_vBoolS _ _ x)))
      (oneOfQF_propErrs (fun x => oneOfQF_vNumberS _ _ x))
  · exact oneOfQF_singleton_not (by simp [typeErr])

theorem oneOfQF_vCredentials (ip sp : String) (v : JVal) :
    oneOfQF (vCredentials ip sp v) := by
  unfold vCredentials
  split
  · exact oneOfQF_append (oneOfQF_propErrs (fun x => oneOfQF_vString _ _ x))
      (oneOfQF_propErrs (fun x => oneOfQF_vString _ _ x))
  · exact oneOfQF_singleton_not (by simp [typeErr])

theorem oneOfQF_vContainerObj (ip sp : String) (v : JVal) :
    oneOfQF (vContainerObj ip sp v) := by
  unfold vContainerObj
  split
  · exact oneOfQF_append (oneOfQF_append (oneOfQF_append (oneOfQF_append (oneOfQF_append
      (oneOfQF_propErrs (fun x => oneOfQF_vString _ _ x))
      (oneOfQF_propErrs (fun x => oneOfQF_vCredentials _ _ x)))
      (oneOfQF_propErrs (fun x => oneOfQF_vStrMap _ _ x)))
      (oneOfQF_propErrs (fun x => oneOfQF_vArrOf _ _ 0 vNumberS oneOfQF_vNumberS x)))
      (oneOfQF_propErrs (fun x => oneOfQF_vArrOf _ _ 0 vString oneOfQF_vString x)))
      (oneOfQF_propErrs (fun x => oneOfQF_vString _ _ x))
  · exact oneOfQF_singleton_not (by simp [typeErr])

theorem oneOfQF_vContainer (ip sp : String) (v : JVal) (hip : qfreeStr ip) :
    oneOfQF (vContainer ip sp v) := by
  unfold vContainer
  refine oneOfQF_oneOfAt ip _ v _ hip ?_
  intro x hx
  rcases List.mem_cons.mp hx with rfl | hx'
  · exact oneOfQF_vString _ _ _
  rcases List.mem_singleton.mp hx' with rfl
  exact oneOfQF_vContainerObj ip _ v

theorem oneOfQF_vServiceObj (ip sp : String) (v : JVal) :
    oneOfQF (vServiceObj ip sp v) := by
  unfold vServiceObj
  split
  · exact oneOfQF_append (oneOfQF_append (oneOfQF_append (oneOfQF_append (oneOfQF_append
      (oneOfQF_propErrs (fun x => oneOfQF_vString _ _ x))
      (oneOfQF_propErrs (fun x => oneOfQF_vCredentials _ _ x)))
      (oneOfQF_propErrs (fun x => oneOfQF_vStrMap _ _ x)))
      (oneOfQF_propErrs (fun x => oneOfQF_vArrOf _ _ 0 vString oneOfQF_vString x)))
      (oneOfQF_propErrs (fun x => oneOfQF_vArrOf _ _ 0 vString oneOfQF_vString x)))
      (oneOfQF_propErrs (fun x => oneOfQF_vString _ _ x))
  · exact oneOfQF_singleton_not (by simp [typeErr])

theorem oneOfQF_vServices (ip sp : String) (v : JVal) : oneOfQF (vServices ip sp v) := by
  unfold vServices
  split
  · exact oneOfQF_flatMap (fun p _ => oneOfQF_vServiceObj _ _ _)
  · exact oneOfQF_singleton_not (by simp [typeErr])

theorem oneOfQF_vWith (ip sp : String) (v : JVal) : oneOfQF (vWith ip sp v) := by
  unfold vWith
  split
  · refine oneOfQF_append (oneOfQF_append (oneOfQF_append (oneOfQF_append
      (oneOfQF_append (oneOfQF_append (oneOfQF_append (oneOfQF_append (oneOfQF_append
      (oneOfQF_propErrs (fun x => oneOfQF_vString _ _ x))
      (oneOfQF_propErrs (fun x => oneOfQF_vString _ _ x)))
      (oneOfQF_propErrs (fun x => oneOfQF_vString _ _ x)))
      (oneOfQF_propErrs (fun x => oneOfQF_vString _ _ x)))
      (oneOfQF_propErrs (fun x => oneOfQF_vString _ _ x)))
      (oneOfQF_propErrs (fun x => oneOfQF_vString _ _ x)))
      (oneOfQF_propErrs (fun x => oneOfQF_vString _ _ x)))
      (oneOfQF_propErrs (fun x => oneOfQF_vString _ _ x)))
      (oneOfQF_propErrs (fun x => oneOfQF_vString _ _ x)))
      (oneOfQF_propErrs (fun x => oneOfQF_vString _ _ x))
  · exact oneOfQF_singleton_not (by simp [typeErr])

theorem oneOfQF_vStepEnv (ip sp : String) (v : JVal) : oneOfQF (vStepEnv ip sp v) := by
  unfold vStepEnv
  split
  · refine oneOfQF_append (oneOfQF_append (oneOfQF_append (oneOfQF_append
      (oneOfQF_append (oneOfQF_append (oneOfQF_append
      (oneOfQF_propErrs (fun x => oneOfQF_vString _ _ x))
      (oneOfQF_propErrs (fun x => oneOfQF_vString _ _ x)))
      (oneOfQF_propErrs (fun x => oneOfQF_vString _ _ x)))
      (oneOfQF_propErrs (fun x => oneOfQF_vString _ _ x)))
      (oneOfQF_propErrs (fun x => oneOfQF_vString _ _ x)))
      (oneOfQF_propErrs (fun x => oneOfQF_vString _ _ x)))
      (oneOfQF_propErrs (fun x => oneOfQF_vString _ _ x)))
      (oneOfQF_propErrs (fun x => oneOfQF_vString _ _ x))
  · exact oneOfQF_singleton_not (by simp [typeErr])

theorem oneOfQF_notReqCheck (ip sp k : String) (v : JVal) :
    oneOfQF (notReqCheck ip sp k v) := by
  unfold notReqCheck
  exact oneOfQF_ite (oneOfQF_singleton_not (by simp [notErr])) oneOfQF_nil

theorem oneOfQF_vStep (ip sp : String) (v : JVal) (hip : qfreeStr ip) :
    oneOfQF (vStep ip sp v) := by
  have hone : oneOfQF (oneOfAt ip sp v
      [reqErrs ip (sp ++ "/oneOf/0") v ["uses"] ++ notReqCheck ip (sp ++ "/oneOf/0") "run" v,
       reqErrs ip (sp ++ "/oneOf/1") v ["run"] ++ notReqCheck ip (sp ++ "/oneOf/1") "uses" v]) := by
    refine oneOfQF_oneOfAt ip _ v _ hip ?_
    intro x hx
    rcases List.mem_cons.mp hx with rfl | hx'
    · exact oneOfQF_append (oneOfQF_reqErrs _ _ _ _) (oneOfQF_notReqCheck _ _ _ _)
    rcases List.mem_singleton.mp hx' with rfl
    exact oneOfQF_append (oneOfQF_reqErrs _ _ _ _) (oneOfQF_notReqCheck _ _ _ _)
  unfold vStep
  split
  · refine oneOfQF_append (oneOfQF_append (oneOfQF_append (oneOfQF_append
      (oneOfQF_append (oneOfQF_append (oneOfQF_append (oneOfQF_append (oneOfQF_append
      (oneOfQF_append (oneOfQF_append
      (oneOfQF_propErrs (fun x => oneOfQF_vString _ _ x))
      (oneOfQF_propErrs (fun x => oneOfQF_vString _ _ x)))
      (oneOfQF_propErrs (fun x => oneOfQF_vString _ _ x)))
      (oneOfQF_propErrs (fun x => oneOfQF_vString _ _ x)))
      (oneOfQF_propErrs (fun x => oneOfQF_vString _ _ x)))
      (oneOfQF_propErrs (fun x => oneOfQF_vString _ _ x)))
      (oneOfQF_propErrs (fun x => oneOfQF_vString _ _ x)))
      (oneOfQF_propErrs (fun x => oneOfQF_vBoolS _ _ x)))
      (oneOfQF_propErrs (fun x => oneOfQF_vNumberS _ _ x)))
      (oneOfQF_propErrs (fun x => oneOfQF_vWith _ _ x)))
      (oneOfQF_propErrs (fun x => oneOfQF_vStepEnv _ _ x)))
      hone
  · exact oneOfQF_append (oneOfQF_singleton_not (by simp [typeErr])) hone

theorem oneOfQF_vStepsArr (ip sp : String) (v : JVal) (hip : qfreeStr ip) :
    oneOfQF (vStepsArr ip sp v) := by
  unfold vStepsArr
  split
  · refine oneOfQF_append (oneOfQF_append
      (oneOfQF_ite (oneOfQF_singleton_not (by simp [minItemsErr])) oneOfQF_nil)
      (oneOfQF_flatMap (fun p _ => oneOfQF_vStep _ _ _
        (qfreeStr_append (qfreeStr_append hip (by decide)) (qfreeStr_natToStr _)))))
      (oneOfQF_ite oneOfQF_nil (oneOfQF_singleton_not (by simp [containsErr])))
  · exact oneOfQF_singleton_not (by simp [typeErr])

theorem oneOfQF_vJob (ip sp : String) (v : JVal) (hip : qfreeStr ip) :
    oneOfQF (vJob ip sp v) := by
  unfold vJob
  split
  · refine oneOfQF_append (oneOfQF_append (oneOfQF_append (oneOfQF_append
      (oneOfQF_append (oneOfQF_append (oneOfQF_append (oneOfQF_append (oneOfQF_append
      (oneOfQF_append (oneOfQF_append (oneOfQF_append (oneOfQF_append (oneOfQF_append
      (oneOfQF_append
      (oneOfQF_reqErrs _ _ _ _)
      (oneOfQF_propErrs (fun x => oneOfQF_vString _ _ x)))
      (oneOfQF_propErrs (fun x => oneOfQF_vStrOrArrStrMin1 _ _ x
        (qfreeStr_append hip (by decide)))))
      (oneOfQF_propErrs (fun x => oneOfQF_vStrOrArrStr _ _ x
        (qfreeStr_append hip (by decide)))))
      (oneOfQF_propErrs (fun x => oneOfQF_vString _ _ x)))
      (oneOfQF_propErrs (fun x => oneOfQF_vEnvironment _ _ x
        (qfreeStr_append hip (by decide)))))
      (oneOfQF_propErrs (fun x => oneOfQF_vConcurrency _ _ x
        (qfreeStr_append hip (by decide)))))
      (oneOfQF_propErrs (fun x => oneOfQF_vStrMap _ _ x)))
      (oneOfQF_propErrs (fun x => oneOfQF_vStrMap _ _ x)))
      (oneOfQF_propErrs (fun x => oneOfQF_vAnyObj _ _ x)))
      (oneOfQF_propErrs (fun x => oneOfQF_vNumberS _ _ x)))
      (oneOfQF_propErrs (fun x => oneOfQF_vStrategy _ _ x)))
      (oneOfQF_propErrs (fun x => oneOfQF_vBoolS _ _ x)))
      (oneOfQF_propErrs (fun x => oneOfQF_vContainer _ _ x
        (qfreeStr_append hip (by decide)))))
      (oneOfQF_propErrs (fun x => oneOfQF_vServices _ _ x)))
      (oneOfQF_propErrs (fun x => oneOfQF_vStepsArr _ _ x
        (qfreeStr_append hip (by decide))))
  · exact oneOfQF_singleton_not (by simp [typeErr])

theorem oneOfQF_vJobs (ip sp : String) (v : JVal) (hip : qfreeStr ip) :
    oneOfQF (vJobs ip sp v) := by
  unfold vJobs
  split
  · refine oneOfQF_append
      (oneOfQF_ite (oneOfQF_singleton_not (by simp [minPropsErr])) oneOfQF_nil)
      (oneOfQF_flatMap (fun p _ => ?_))
    by_cases hp : jobNameMatch p.1 = true
    · rw [if_pos hp]
      refine oneOfQF_vJob _ _ _ ?_
      refine qfreeStr_append (qfreeStr_append hip (by decide)) ?_
      rw [escPtrSeg_id p.1 (fun c hc =>
        ⟨(jobChar_props c (jobNameMatch_chars p.1 hp c hc)).2.2.2.1,
         (jobChar_props c (jobNameMatch_chars p.1 hp c hc)).2.2.1⟩)]
      exact fun c hc => (jobChar_props c (jobNameMatch_chars p.1 hp c hc)).1
    · rw [if_neg hp]
      exact oneOfQF_nil
  · exact oneOfQF_singleton_not (by simp [typeErr])

theorem validateWorkflow_oneOf_qfree (v : JVal) : oneOfQF (validateWorkflow v) := by
  unfold validateWorkflow
  split
  · refine oneOfQF_append (oneOfQF_append (oneOfQF_append (oneOfQF_append
      (oneOfQF_append (oneOfQF_append
      (oneOfQF_reqErrs _ _ _ _)
      (oneOfQF_propErrs (fun x => oneOfQF_vStringMin1 _ _ x)))
      (oneOfQF_propErrs (fun x => oneOfQF_vOn _ _ x (by decide))))
      (oneOfQF_propErrs (fun x => oneOfQF_vStrMap _ _ x)))
      (oneOfQF_propErrs (fun x => oneOfQF_vAnyObj _ _ x)))
      (oneOfQF_propErrs (fun x => oneOfQF_vConcurrency _ _ x (by decide))))
      (oneOfQF_propErrs (fun x => oneOfQF_vJobs _ _ x (by decide)))
  · exact oneOfQF_singleton_not (by simp [typeErr])

theorem dottedPath_qfree (ip : String) (h : qfreeStr ip) : qfreeStr (dottedPath ip) := by
  intro c hc
  have hc' : c ∈ ((if ip.data.head? = some '/' then ip.data.tail else ip.data).map
      (fun c => if c = '/' then '.' else c)) := hc
  obtain ⟨a, ha, hac⟩ := List.mem_map.mp hc'
  have ha' : a ∈ ip.data := by
    split at ha
    · exact List.mem_of_mem_tail ha
    · exact ha
  subst hac
  by_cases hslash : a = '/'
  · rw [if_pos hslash]
    decide
  · rw [if_neg hslash]
    exact h a ha'

theorem splitCharList_chars_sub (c : Char) (l : List Char) :
    ∀ seg ∈ splitCharList c l, ∀ x ∈ seg, x ∈ l := by
  induction l with
  | nil =>
    intro seg hseg x hx
    simp [splitCharList] at hseg
    subst hseg
    exact absurd hx (List.not_mem_nil x)
  | cons y ys ih =>
    intro seg hseg x hx
    rw [splitCharList] at hseg
    cases hs : splitCharList c ys with
    | nil => exact absurd hs (splitCharList_ne_nil c ys)
    | cons h t =>
      rw [hs] at hseg
      dsimp only at hseg
      by_cases hyc : y = c
      · rw [if_pos hyc] at hseg
        rcases List.mem_cons.mp hseg with rfl | hseg'
        · exact absurd hx (List.not_mem_nil x)
        · exact List.mem_cons_of_mem y (ih seg (hs ▸ hseg') x hx)
      · rw [if_neg hyc] at hseg
        rcases List.mem_cons.mp hseg with rfl | hseg'
        · rcases List.mem_cons.mp hx with rfl | hx'
          · exact List.mem_cons_self x ys
          · exact List.mem_cons_of_mem y (ih h (hs ▸ List.mem_cons_self h t) x hx')
        · exact List.mem_cons_of_mem y (ih seg (hs ▸ List.mem_cons_of_mem h hseg') x hx)

theorem jsSplit_seg_qfree (s : String) (h : qfreeStr s) (n : Nat) :
    qfreeStr (strOpt ((jsSplit '.' s).get? n)) := by
  cases hg : (jsSplit '.' s).get? n with
  | none =>
    intro c hc
    exact (by decide : qfreeStr "undefined") c hc
  | some seg =>
    have hmem : seg ∈ jsSplit '.' s := List.get?_mem hg
    obtain ⟨sl, hsl, rfl⟩ := List.mem_map.mp hmem
    intro c hc
    have hc' : c ∈ sl := hc
    exact h c (splitCharList_chars_sub '.' s.data sl hsl c hc')

theorem intToStr_chars (z : Int) : ∀ c ∈ (intToStr z).data, c = '-' ∨ c.isDigit = true := by
  unfold intToStr
  split
  · intro c hc
    have hc' : c ∈ '-' :: (natDigitsRev z.natAbs).reverse := hc
    rcases List.mem_cons.mp hc' with rfl | h'
    · exact Or.inl rfl
    · exact Or.inr (natDigitsRevAux_digits _ _ c (List.mem_reverse.mp h'))
  · intro c hc
    exact Or.inr (natToStr_digits z.natAbs c hc)

theorem renderIdxPlus1_chars (o : Option String) :
    ∀ c ∈ (renderIdxPlus1 o).data, c ≠ ' ' := by
  cases o with
  | none =>
    intro c hc
    exact (by decide : ∀ c ∈ ("NaN").data, c ≠ ' ') c hc
  | some s =>
    cases hp : parseLeadingInt s with
    | none =>
      have hr : renderIdxPlus1 (some s) = "NaN" := by
        simp [renderIdxPlus1, hp]
      rw [hr]
      intro c hc
      exact (by decide : ∀ c ∈ ("NaN").data, c ≠ ' ') c hc
    | some z =>
      have hr : renderIdxPlus1 (some s) = intToStr (z + 1) := by
        simp [renderIdxPlus1, hp]
      rw [hr]
      intro c hc
      rcases intToStr_chars (z + 1) c hc with rfl | hd
      · decide
      · exact (isDigit_char_props c hd).2.2.2.1

theorem jsKey_data (d : ValidationError) :
    (jsKey d).data = (vTypeStr d.type).data
      ++ '-' :: (d.message.data
      ++ '-' :: ((numToStrOpt d.line).data
      ++ '-' :: ((numToStrOpt d.column).data
      ++ '-' :: (strOpt d.path).data))) := by
  simp [jsKey, String.data_append, show ("-").data = ['-'] from rfl]

theorem jsKey_eq_type_structure (d : ValidationError) (x : List Char)
    (hx : (jsKey d).data = (vTypeStr VType.structureErr).data ++ '-' :: x) :
    d.type = .structureErr := by
  have h1 : ((vTypeStr d.type).data ++ ['-']) <+: (jsKey d).data := by
    rw [jsKey_data]
    exact ⟨d.message.data
      ++ '-' :: ((numToStrOpt d.line).data
      ++ '-' :: ((numToStrOpt d.column).data
      ++ '-' :: (strOpt d.path).data)), by simp⟩
  have h2 : ((vTypeStr VType.structureErr).data ++ ['-']) <+: (jsKey d).data := by
    rw [hx]
    exact ⟨x, by simp⟩
  rcases List.prefix_or_prefix_of_prefix h1 h2 with hp | hp <;>
    (cases h : d.type <;> rw [h] at hp <;>
      first
        | rfl
        | exact absurd (List.isPrefixOf_iff_prefix.mpr hp) (by decide))

theorem append_delim_inj (c : Char) (a₁ : List Char) :
    ∀ (a₂ r₁ r₂ : List Char), (∀ x ∈ a₁, x ≠ c) → (∀ x ∈ a₂, x ≠ c) →
      a₁ ++ c :: r₁ = a₂ ++ c :: r₂ → a₁ = a₂ ∧ r₁ = r₂ := by
  induction a₁ with
  | nil =>
    intro a₂ r₁ r₂ _ h2 he
    cases a₂ with
    | nil =>
      simp only [List.nil_append, List.cons.injEq] at he
      exact ⟨rfl, he.2⟩
    | cons y ys =>
      simp only [List.nil_append, List.cons_append, List.cons.injEq] at he
      exact absurd he.1.symm (h2 y (List.mem_cons_self y ys))
  | cons z zs ih =>
    intro a₂ r₁ r₂ h1 h2 he
    cases a₂ with
    | nil =>
      simp only [List.nil_append, List.cons_append, List.cons.injEq] at he
      exact absurd he.1 (h1 z (List.mem_cons_self z zs))
    | cons y ys =>
      simp only [List.cons_append, List.cons.injEq] at he
      obtain ⟨rfl, he'⟩ := he
      obtain ⟨hA, hB⟩ := ih ys r₁ r₂ (fun w hw => h1 w (List.mem_cons_of_mem z hw))
        (fun w hw => h2 w (List.mem_cons_of_mem z hw)) he'
      exact ⟨by rw [hA], hB⟩

theorem stepBothMsg_data_shape (x j : String) (r : List Char) :
    (stepBothMsg x j).data ++ r
      = ("Step ").data ++ (x.data ++ ' ' :: (("in job '").data ++ (j.data ++ '\'' :: ((" must have either 'uses' for actions or 'run' for shell commands. But not both together.").data ++ r)))) := by
  simp [stepBothMsg, String.data_append,
    show (" in job '").data = ' ' :: ("in job '").data from rfl,
    show ("' must have either 'uses' for actions or 'run' for shell commands. But not both together.").data
      = '\'' :: (" must have either 'uses' for actions or 'run' for shell commands. But not both together.").data from rfl]

theorem stepBothMsg_inj (x₁ j₁ x₂ j₂ : String) (r₁ r₂ : List Char)
    (hx₁ : ∀ c ∈ x₁.data, c ≠ ' ') (hx₂ : ∀ c ∈ x₂.data, c ≠ ' ')
    (hj₁ : ∀ c ∈ j₁.data, c ≠ '\'') (hj₂ : ∀ c ∈ j₂.data, c ≠ '\'')
    (h : (stepBothMsg x₁ j₁).data ++ r₁ = (stepBothMsg x₂ j₂).data ++ r₂) :
    x₁ = x₂ ∧ j₁ = j₂ := by
  rw [stepBothMsg_data_shape, stepBothMsg_data_shape] at h
  have h1 := List.append_cancel_left h
  obtain ⟨hx, h2⟩ := append_delim_inj ' ' x₁.data x₂.data _ _ hx₁ hx₂ h1
  have h3 := List.append_cancel_left h2
  obtain ⟨hj, _⟩ := append_delim_inj '\'' j₁.data j₂.data _ _ hj₁ hj₂ h3
  exact ⟨congrArg String.mk hx, congrArg String.mk hj⟩

theorem job_form_ne_step_form (jn x j : String) (r₁ r₂ : List Char)
    (h : ("Job '" ++ jn ++ "' requires at least one step.").data ++ r₁
        = (stepBothMsg x j).data ++ r₂) : False := by
  have hL : ("Job '" ++ jn ++ "' requires at least one step.").data ++ r₁
      = 'J' :: (("ob '").data ++ (jn.data ++ (("' requires at least one step.").data ++ r₁))) := by
    simp [String.data_append, show ("Job '").data = 'J' :: ("ob '").data from rfl]
  have hR : (stepBothMsg x j).data ++ r₂
      = 'S' :: (("tep ").data ++ (x.data ++ ((" in job '").data ++ (j.data ++ (("' must have either 'uses' for actions or 'run' for shell commands. But not both together.").data ++ r₂))))) := by
    simp [stepBothMsg, String.data_append, show ("Step ").data = 'S' :: ("tep ").data from rfl]
  rw [hL, hR] at h
  exact absurd (List.cons.inj h).1 (by decide)

theorem pipeline_structure_message (doc : String) (v : JVal)
    (conv : List (Option ValidationError)) (addl : List ValidationError)
    (hconv : mapME (fun e => convertAjvError e (buildLocationMap doc v))
      (validateWorkflow v) = .ok conv)
    (hadd : performAdditionalValidations v (buildLocationMap doc v) = .ok addl)
    (d : ValidationError) (hd : d ∈ conv.filterMap id ++ addl)
    (ht : d.type = .structureErr) :
    (∃ jn, d.message = "Job '" ++ jn ++ "' requires at least one step.")
    ∨ (∃ x jn, d.message = stepBothMsg x jn
        ∧ (∀ c ∈ x.data, c ≠ ' ') ∧ (∀ c ∈ jn.data, c ≠ '\'')) := by
  rcases List.mem_append.mp hd with h' | h'
  · obtain ⟨o, ho, hod⟩ := List.mem_filterMap.mp h'
    obtain rfl : o = some d := hod
    obtain ⟨e, heV, hfe⟩ :=
      (mapME_ok_mem (fun e => convertAjvError e (buildLocationMap doc v))
        (validateWorkflow v) conv hconv).1 (some d) ho
    have hcore : convertAjvErrorCore e
        ((lmGet (buildLocationMap doc v) (dottedPath e.instancePath)).getD
          ⟨1, 1, dottedPath e.instancePath⟩)
        (dottedPath e.instancePath)
        (strOpt ((jsSplit '.' (dottedPath e.instancePath)).get? 1))
        ((jsSplit '.' (dottedPath e.instancePath)).get? 3) = .ok (some d) := hfe
    rcases (convertAjvErrorCore_out e _ _ _ _ d hcore).2.2 ht with
      ⟨_, _, _, hmsg⟩ | ⟨hkw, _, hmsg⟩
    · exact Or.inl ⟨_, hmsg⟩
    · refine Or.inr ⟨_, _, hmsg, renderIdxPlus1_chars _, ?_⟩
      have hqip : qfreeStr e.instancePath :=
        validateWorkflow_oneOf_qfree v e heV hkw
      exact jsSplit_seg_qfree (dottedPath e.instancePath)
        (dottedPath_qfree e.instancePath hqip) 1
  · obtain ⟨hty, _, _⟩ := performAdditionalValidations_ok_inv v (buildLocationMap doc v)
      (buildLocationMap_line_pos doc v) addl hadd d h'
    rcases hty with h1 | h1 <;> rw [ht] at h1 <;> exact VType.noConfusion h1

theorem structure_key_eq_message (d d0 : ValidationError)
    (ht : d.type = .structureErr) (ht0 : d0.type = .structureErr)
    (hkey : jsKey d = jsKey d0)
    (hshape : (∃ jn, d.message = "Job '" ++ jn ++ "' requires at least one step.")
      ∨ (∃ x jn, d.message = stepBothMsg x jn
          ∧ (∀ c ∈ x.data, c ≠ ' ') ∧ (∀ c ∈ jn.data, c ≠ '\'')))
    (x0 j0 : String) (hm0 : d0.message = stepBothMsg x0 j0)
    (hx0 : ∀ c ∈ x0.data, c ≠ ' ') (hj0 : ∀ c ∈ j0.data, c ≠ '\'') :
    d.message = stepBothMsg x0 j0 := by
  have hdta := congrArg String.data hkey
  rw [jsKey_data, jsKey_data, ht, ht0] at hdta
  have hmsg := (List.cons.inj (List.append_cancel_left hdta)).2
  rw [hm0] at hmsg
  rcases hshape with ⟨jn, hjn⟩ | ⟨x, jn, hsm, hx, hj⟩
  · rw [hjn] at hmsg
    exact absurd hmsg (fun hh => job_form_ne_step_form jn x0 j0 _ _ hh)
  · rw [hsm] at hmsg
    obtain ⟨hx', hj'⟩ := stepBothMsg_inj x jn x0 j0 _ _ hx hx0 hj hj0 hmsg
    rw [hsm, hx', hj']

/-- C6 (corrected): for every parsed workflow object carrying a `jobs`
entry whose name `j` matches the schema's job-name pattern
(`^[a-zA-Z_][a-zA-Z0-9_-]*$`) and whose `steps` array holds, at index `i`,
a step object with both a `uses` and a `run` key, every normal return of
`getYamlErrors` contains a `structure` diagnostic of severity `error`
whose message names the 1-based step index `i + 1` and the job name `j`
(the step `oneOf` failure, translated by `convertAjvError` and surviving
deduplication and the line sort).  The pattern restriction is necessary:
jobs with non-matching names are skipped by `patternProperties`, as the
counterexample `both_uses_and_run_unmatched_job_name_cex` shows. -/
theorem both_uses_and_run_yields_structure_diag (doc : String)
    (f jf jb sf : List (String × JVal))
    (j : String) (steps : List JVal) (i : Nat) (out : List ValidationError)
    (hjobs : f.lookup "jobs" = some (.obj jf))
    (hmem : (j, JVal.obj jb) ∈ jf)
    (hname : jobNameMatch j = true)
    (hsteps : jb.lookup "steps" = some (.arr steps))
    (hst : steps.get? i = some (.obj sf))
    (hu : (sf.lookup "uses").isSome = true)
    (hr : (sf.lookup "run").isSome = true)
    (h : getYamlErrors doc (.ok (.obj f)) = .ok out) :
    ∃ d ∈ out, d.type = .structureErr ∧ d.severity = .error
      ∧ d.message = stepBothMsg (natToStr (i + 1)) j := by
  have hv : ¬(jsFalsy (.obj f) || !(jsTypeof (.obj f) == "object")) = true := by
    simp [jsFalsy, jsTypeof]
  obtain ⟨conv, addl, hconv, hadd, hout⟩ := getYamlErrors_ok_obj doc (.obj f) hv out h
  have hipeq : ("/jobs" ++ "/" ++ escPtrSeg j) ++ "/steps" ++ "/" ++ natToStr i
      = "/jobs/" ++ escPtrSeg j ++ "/steps/" ++ natToStr i := by
    have hdata : ((("/jobs" ++ "/" ++ escPtrSeg j) ++ "/steps" ++ "/" ++ natToStr i)).data
        = ("/jobs/" ++ escPtrSeg j ++ "/steps/" ++ natToStr i).data := by
      simp [String.data_append]
    exact congrArg String.mk hdata
  have he0 : oneOfErr ("/jobs/" ++ escPtrSeg j ++ "/steps/" ++ natToStr i)
      ((("#/properties/jobs" ++ "/patternProperties/job") ++ "/properties/steps") ++ "/items")
      (.obj sf) ∈ validateWorkflow (.obj f) := by
    rw [← hipeq]
    refine mem_validateWorkflow_of_jobs f _ hjobs _ ?_
    refine mem_vJobs_of_job _ _ jf j _ hmem hname _ ?_
    refine mem_vJob_of_steps _ _ jb _ hsteps _ ?_
    refine mem_vStepsArr_of_step _ _ steps i _ hst _ ?_
    exact vStep_both_oneOfErr_mem _ _ sf hu hr
  obtain ⟨d0, hcd0, htd0, hsd0, hmd0⟩ :=
    convertAjvError_step_oneOf (buildLocationMap doc (.obj f)) j i
      ((("#/properties/jobs" ++ "/patternProperties/job") ++ "/properties/steps") ++ "/items")
      (.obj sf) hname
  obtain ⟨y, hy, hfy⟩ :=
    (mapME_ok_mem (fun e => convertAjvError e (buildLocationMap doc (.obj f)))
      (validateWorkflow (.obj f)) conv hconv).2 _ he0
  have hyd0 : y = some d0 := Except.ok.inj (hfy.symm.trans hcd0)
  subst hyd0
  have hd0L : d0 ∈ conv.filterMap id ++ addl :=
    List.mem_append_left _ (List.mem_filterMap.mpr ⟨some d0, hy, rfl⟩)
  obtain ⟨d, hd_dedup, hdkey⟩ :=
    removeDuplicateErrorsGo_complete [] _ d0 hd0L (by simp)
  have hdL : d ∈ conv.filterMap id ++ addl :=
    (removeDuplicateErrorsGo_sublist [] _).mem hd_dedup
  have hdout : d ∈ out := by
    rw [hout]
    exact (mem_sortByLine d _).mpr hd_dedup
  have htd : d.type = .structureErr := by
    refine jsKey_eq_type_structure d
      (d0.message.data
        ++ '-' :: ((numToStrOpt d0.line).data
        ++ '-' :: ((numToStrOpt d0.column).data
        ++ '-' :: (strOpt d0.path).data))) ?_
    have h0 := congrArg String.data hdkey
    rw [jsKey_data d0, htd0] at h0
    exact h0
  have hshape := pipeline_structure_message doc (.obj f) conv addl hconv hadd d hdL htd
  have hx0 : ∀ c ∈ (natToStr (i + 1)).data, c ≠ ' ' :=
    fun c hc => (isDigit_char_props c (natToStr_digits _ c hc)).2.2.2.1
  have hj0 : ∀ c ∈ j.data, c ≠ '\'' :=
    fun c hc => (jobChar_props c (jobNameMatch_chars j hname c hc)).1
  have hsd : d.severity = .error :=
    (getYamlErrors_out_inv doc (.ok (.obj f)) out h d hdout).1
  exact ⟨d, hdout, htd,
    hsd,
    structure_key_eq_message d d0 htd htd0 hdkey hshape
      (natToStr (i + 1)) j hmd0 hx0 hj0⟩

theorem both_uses_and_run_yields_structure_diag_witness :
    ∃ d ∈ [(⟨.structureErr,
        "Step 1 in job 'build' must have either 'uses' for actions or 'run' for shell commands. But not both together.",
        some 6, some 5, some "jobs.build.steps.0", .error⟩ : ValidationError)],
      d.type = .structureErr ∧ d.severity = .error
        ∧ d.message = stepBothMsg (natToStr (0 + 1)) "build" :=
  both_uses_and_run_yields_structure_diag docC6b
    [("name", .str "CI"), ("on", .str "push"),
     ("jobs", .obj [("build", .obj [("runs-on", .str "ubuntu-latest"),
       ("steps", .arr [stepBoth])])])]
    [("build", .obj [("runs-on", .str "ubuntu-latest"), ("steps", .arr [stepBoth])])]
    [("runs-on", .str "ubuntu-latest"), ("steps", .arr [stepBoth])]
    [("uses", .str "blackduck-inc/black-duck-security-scan@v2"), ("run", .str "echo hi")]
    "build" [stepBoth] 0 _
    rfl (List.mem_singleton.mpr rfl) rfl rfl rfl rfl rfl rfl
